import Mathlib

/-!
# NetworkClient (qtxmlrpc/client/clientprotocol.cpp)

A shallow embedding of the reconnecting client transport of qtxmlrpc.  The
object state of `NetworkClient` is a record; every member function is a
function on that record.  A call that dereferences the null `socket` pointer
has no result (`none`).  The requests the client sends to its socket and the
signals it emits are appended to the field `out`, oldest first.

The socket and the timers are Qt objects.  Of the socket the record keeps the
connection state that `socket->state()` reads and the connections to the
protocol slots; `connectToHost` and `abort` act on it as Qt documents them.  A
signal of the socket reaches the client as a call of its slot, one call after
the other (`deliver`).  What the socket answers to `write` is a parameter of
`sureWrite`.  The counters `protocolRetry` and `maxProtocolRetries` are declared
in clientprotocol.h and are taken as integers.
-/

namespace QtXmlRpc

/-- Values of `QAbstractSocket::SocketState`. -/
inductive SocketState
  | UnconnectedState
  | HostLookupState
  | ConnectingState
  | ConnectedState
  | BoundState
  | ListeningState
  | ClosingState
  deriving DecidableEq, Repr

/-- Values of `QAbstractSocket::SocketError`.  The thirteen enumerators named in
the switch of `onSocketError` are constructors of their own; `other code` is any
value the switch does not name (it reaches the `default:` label). -/
inductive SocketError
  | ConnectionRefusedError
  | RemoteHostClosedError
  | HostNotFoundError
  | SocketAccessError
  | SocketResourceError
  | SocketTimeoutError
  | DatagramTooLargeError
  | NetworkError
  | AddressInUseError
  | SocketAddressNotAvailableError
  | UnsupportedSocketOperationError
  | ProxyAuthenticationRequiredError
  | UnknownSocketError
  | other (code : Int)
  deriving DecidableEq, Repr

/-- What leaves the client: requests to the socket (`connectToHost`, `abort`,
and `write` with the bytes offered and the result the socket returned) and the
two signals of the class (`error`, `done`). -/
inductive Effect
  | connectToHost (host : String) (port : Nat)
  | abort
  | error (errTxt : String)
  | done
  | write (offered : List UInt8) (res : Int)
  deriving DecidableEq, Repr

/-- A `QTimer` as the client uses it: an interval, the single-shot flag and
whether it is running (`isActive`). -/
structure QTimer where
  interval : Nat
  singleShot : Bool
  active : Bool
  deriving DecidableEq, Repr

/-- Result of `QTimer::isActive`. -/
def QTimer.isActive (t : QTimer) : Bool := t.active

/-- Effect of `QTimer::start(msec)`: sets the interval and runs the timer. -/
def QTimer.start (t : QTimer) (msec : Nat) : QTimer :=
  { t with interval := msec, active := true }

/-- Effect of `QTimer::stop`. -/
def QTimer.stop (t : QTimer) : QTimer :=
  { t with active := false }

/-- The socket as the client sees it: its connection state and the number of
`readyRead`/`bytesWritten` connections to the client made by `protocolStart`. -/
structure QAbstractSocket where
  state : SocketState
  readWriteConnections : Nat
  deriving DecidableEq, Repr

/-- Effect of `QAbstractSocket::connectToHost`: the socket enters
`HostLookupState`; what follows is reported by later notifications. -/
def QAbstractSocket.connectToHost (s : QAbstractSocket) : QAbstractSocket :=
  { s with state := SocketState.HostLookupState }

/-- Effect of `QAbstractSocket::abort`: the socket is reset and is in
`UnconnectedState` afterwards. -/
def QAbstractSocket.abort (s : QAbstractSocket) : QAbstractSocket :=
  { s with state := SocketState.UnconnectedState }

/-- Effect of connecting `readyRead` and `bytesWritten` to the slots of the client. -/
def QAbstractSocket.connectReadWrite (s : QAbstractSocket) : QAbstractSocket :=
  { s with readWriteConnections := s.readWriteConnections + 1 }

/-- Effect of disconnecting `readyRead` and `bytesWritten` from the slots
of the client: every matching connection is removed. -/
def QAbstractSocket.disconnectReadWrite (s : QAbstractSocket) : QAbstractSocket :=
  { s with readWriteConnections := 0 }

/-- The object state of `NetworkClient`.  `connectTimeout` and `reconnectSleep`
are declared in clientprotocol.h; they are kept as fields.  `out` records the
requests and signals issued so far. -/
structure NetworkClient where
  dstHost : String
  dstPort : Nat
  protocolRetry : Int
  maxProtocolRetries : Int
  protocolStarted : Bool
  connectTimeout : Nat
  reconnectSleep : Nat
  connectTimeoutTimer : QTimer
  reconnectSleepTimer : QTimer
  socket : Option QAbstractSocket
  out : List Effect
  deriving DecidableEq, Repr

namespace NetworkClient

/-- The constructor `NetworkClient::NetworkClient(dstHost, dstPort, parent)`:
the port is a `quint16`, the counter starts at 0 with bound 10, the protocol is
not started, both timers are single-shot and idle, and the socket is null. -/
def new (connectTimeout reconnectSleep : Nat) (dstHost : String) (dstPort : Nat) :
    NetworkClient :=
  { dstHost := dstHost
    dstPort := dstPort % 65536
    protocolRetry := 0
    maxProtocolRetries := 10
    protocolStarted := false
    connectTimeout := connectTimeout
    reconnectSleep := reconnectSleep
    connectTimeoutTimer := { interval := connectTimeout, singleShot := true, active := false }
    reconnectSleepTimer := { interval := reconnectSleep, singleShot := true, active := false }
    socket := none
    out := [] }

/-- The socket `NetworkClient::buildSocket` returns: a fresh `QTcpSocket`,
unconnected and with no connection to the protocol slots. -/
def buildSocket : QAbstractSocket :=
  { state := SocketState.UnconnectedState, readWriteConnections := 0 }

/-- The member `NetworkClient::stopTimers`. -/
def stopTimers (c : NetworkClient) : NetworkClient :=
  let c := if c.connectTimeoutTimer.isActive then
      { c with connectTimeoutTimer := c.connectTimeoutTimer.stop } else c
  let c := if c.reconnectSleepTimer.isActive then
      { c with reconnectSleepTimer := c.reconnectSleepTimer.stop } else c
  c

/-- The call `socket->abort()`: undefined on a null socket. -/
def socketAbort (c : NetworkClient) : Option NetworkClient :=
  match c.socket with
  | none => none
  | some s => some { c with socket := some s.abort, out := c.out ++ [Effect.abort] }

/-- The member `NetworkClient::connectSocket`:
`socket->connectToHost(dstHost, dstPort)`. -/
def connectSocket (c : NetworkClient) : Option NetworkClient :=
  match c.socket with
  | none => none
  | some s =>
    some { c with socket := some s.connectToHost,
                  out := c.out ++ [Effect.connectToHost c.dstHost c.dstPort] }

/-- The member `NetworkClient::protocolStart`.  `QObject::connect` with a null
sender fails without effect. -/
def protocolStart (c : NetworkClient) : NetworkClient :=
  let c := stopTimers c
  let c := { c with protocolRetry := c.protocolRetry + 1 }
  let c := { c with protocolStarted := true }
  { c with socket := c.socket.map QAbstractSocket.connectReadWrite }

/-- The member `NetworkClient::protocolStop`.  `QObject::disconnect` removes
every matching connection; the final `socket->abort()` needs a socket. -/
def protocolStop (c : NetworkClient) : Option NetworkClient :=
  let c := { c with protocolStarted := false }
  let c := { c with protocolRetry := c.protocolRetry - 1 }
  let c := { c with socket := c.socket.map QAbstractSocket.disconnectReadWrite }
  socketAbort c

/-- The member `NetworkClient::emitError`. -/
def emitError (errTxt : String) (c : NetworkClient) : Option NetworkClient :=
  (if c.protocolStarted then protocolStop c else some (stopTimers c)).bind fun c =>
  (socketAbort c).bind fun c =>
  some { c with out := c.out ++ [Effect.error errTxt] }

/-- The member `NetworkClient::emitDone`. -/
def emitDone (c : NetworkClient) : Option NetworkClient :=
  (if c.protocolStarted then protocolStop c else some (stopTimers c)).bind fun c =>
  some { c with out := c.out ++ [Effect.done] }

/-- The slot `NetworkClient::deferredStart`. -/
def deferredStart (c : NetworkClient) : Option NetworkClient :=
  let c := if c.socket.isNone then { c with socket := some buildSocket } else c
  if c.protocolRetry ≥ c.maxProtocolRetries then
    emitError "Maximum protocol retries has reached" c
  else
    let c := if !c.connectTimeoutTimer.isActive then
        { c with connectTimeoutTimer := c.connectTimeoutTimer.start c.connectTimeout } else c
    let c := if c.reconnectSleepTimer.isActive then
        { c with reconnectSleepTimer := c.reconnectSleepTimer.stop } else c
    match c.socket with
    | none => none
    | some s =>
      match s.state with
      | SocketState.UnconnectedState => connectSocket c
      | SocketState.ConnectedState => some (protocolStart c)
      | _ => some c

/-- The slot `NetworkClient::onConnectTimeout`. -/
def onConnectTimeout (c : NetworkClient) : Option NetworkClient :=
  emitError "Connect timeout" c

/-- The slot `NetworkClient::onSocketStateChanged`. -/
def onSocketStateChanged (socketState : SocketState) (c : NetworkClient) :
    Option NetworkClient :=
  if c.protocolRetry ≥ c.maxProtocolRetries then
    emitError "maxProtocolRetries reached" c
  else
    match socketState with
    | SocketState.ConnectedState =>
      if !c.protocolStarted then some (protocolStart c) else some c
    | SocketState.UnconnectedState =>
      if c.protocolStarted then protocolStop c else some c
    | _ => some c

/-- The slot `NetworkClient::onSocketError`.  `QString::number(dstPort)` is the
decimal rendering of the port. -/
def onSocketError (socketError : SocketError) (c : NetworkClient) : Option NetworkClient :=
  match socketError with
  | SocketError.ConnectionRefusedError
  | SocketError.SocketTimeoutError
  | SocketError.RemoteHostClosedError => some c
  | SocketError.HostNotFoundError =>
    emitError ("Host not found: " ++ c.dstHost ++ ":" ++ Nat.repr c.dstPort) c
  | SocketError.SocketAccessError
  | SocketError.SocketResourceError
  | SocketError.DatagramTooLargeError
  | SocketError.AddressInUseError
  | SocketError.NetworkError
  | SocketError.SocketAddressNotAvailableError
  | SocketError.UnsupportedSocketOperationError
  | SocketError.ProxyAuthenticationRequiredError
  | SocketError.UnknownSocketError => emitError "Bad socket error" c
  | SocketError.other _ => emitError "Unknown socket error" c

/-- The loop of `NetworkClient::sureWrite`.  `ptr` is the offset of the pointer
into `response`, `len` the `qint64` count of bytes left.  The socket answers
`write(ptr, len)` through `write`, which takes the state of its write side and
the bytes offered and gives the result and the next state.  The first argument
bounds the number of iterations: the loop has no result when it has not ended
within that many, or when it dereferences the null socket. -/
def sureWriteLoop {σ : Type} (write : σ → List UInt8 → Int × σ) (response : List UInt8) :
    Nat → Nat → Int → σ → NetworkClient → Option (NetworkClient × σ)
  | 0, _, len, t, c => if len = 0 then some (c, t) else none
  | fuel + 1, ptr, len, t, c =>
    if len = 0 then some (c, t)
    else
      match c.socket with
      | none => none
      | some _ =>
        let offered := (response.drop ptr).take len.toNat
        let r := write t offered
        let c := { c with out := c.out ++ [Effect.write offered r.1] }
        if r.1 < 0 then some (c, r.2)
        else sureWriteLoop write response fuel (ptr + r.1.toNat) (len - r.1) r.2 c

/-- The member `NetworkClient::sureWrite`: `len = response.size()`,
`ptr = response.data()`, then the loop.  It returns `void`: the result is the
client afterwards (and the state of the write side of the socket). -/
def sureWrite {σ : Type} (write : σ → List UInt8 → Int × σ) (fuel : Nat)
    (response : List UInt8) (t : σ) (c : NetworkClient) : Option (NetworkClient × σ) :=
  sureWriteLoop write response fuel 0 (response.length : Int) t c

end NetworkClient

/-! ## Reading the output -/

/-- The messages of the `error` signals in an output, in order. -/
def errorsOf : List Effect → List String
  | [] => []
  | Effect.error t :: l => t :: errorsOf l
  | _ :: l => errorsOf l

/-- Number of `done` signals in an output. -/
def doneCount : List Effect → Nat
  | [] => 0
  | Effect.done :: l => doneCount l + 1
  | _ :: l => doneCount l

/-- Number of `connectToHost` requests in an output. -/
def connectCount : List Effect → Nat
  | [] => 0
  | Effect.connectToHost _ _ :: l => connectCount l + 1
  | _ :: l => connectCount l

/-- Number of `abort` requests in an output. -/
def abortCount : List Effect → Nat
  | [] => 0
  | Effect.abort :: l => abortCount l + 1
  | _ :: l => abortCount l

/-- Number of signals (`error` or `done`) in an output. -/
def eventCount (l : List Effect) : Nat := (errorsOf l).length + doneCount l

/-- The `write` calls in an output, in order: bytes offered and result. -/
def writesOf : List Effect → List (List UInt8 × Int)
  | [] => []
  | Effect.write d r :: l => (d, r) :: writesOf l
  | _ :: l => writesOf l

/-- The output entries of a sequence of `write` calls. -/
def writeEffects (calls : List (List UInt8 × Int)) : List Effect :=
  calls.map fun p => Effect.write p.1 p.2

/-- The bytes the socket accepted over a sequence of `write` calls: of each call
the first `res` bytes offered (none when the result is negative). -/
def acceptedBytes : List (List UInt8 × Int) → List UInt8
  | [] => []
  | (d, r) :: l => d.take r.toNat ++ acceptedBytes l

/-- Each call of the sequence is offered exactly what is left of `rest` after
the calls before it. -/
def offersSuffixes : List UInt8 → List (List UInt8 × Int) → Bool
  | _, [] => true
  | rest, (d, r) :: l => decide (d = rest) && offersSuffixes (rest.drop r.toNat) l

/-! ## Sample states -/

/-- A freshly constructed client for the endpoint `("example.test", 9999)`. -/
def NetworkClient.sampleIdle : NetworkClient := NetworkClient.new 100 1000 "example.test" 9999

/-- The client after `deferredStart` on a constructed client: socket built,
connect timer running, connection requested. -/
def NetworkClient.connecting (connectTimeout reconnectSleep : Nat) (dstHost : String)
    (dstPort : Nat) : NetworkClient :=
  { NetworkClient.new connectTimeout reconnectSleep dstHost dstPort with
    connectTimeoutTimer := { interval := connectTimeout, singleShot := true, active := true }
    socket := some { state := SocketState.HostLookupState, readWriteConnections := 0 }
    out := [Effect.connectToHost dstHost (dstPort % 65536)] }

/-- The state `connecting` for the endpoint `("example.test", 9999)`. -/
def NetworkClient.sampleConnecting : NetworkClient :=
  NetworkClient.connecting 100 1000 "example.test" 9999

/-- The client after the socket of `sampleConnecting` reported `ConnectedState`:
the protocol is started. -/
def NetworkClient.sampleActive : NetworkClient :=
  { NetworkClient.sampleConnecting with
    protocolRetry := 1
    protocolStarted := true
    connectTimeoutTimer := { interval := 100, singleShot := true, active := false }
    socket := some { state := SocketState.ConnectedState, readWriteConnections := 1 } }

/-! ## Notifications and call sequences -/

/-- The error codes of the first case group of `onSocketError`, which only
`break`. -/
def SocketError.ignored : SocketError → Bool
  | SocketError.ConnectionRefusedError => true
  | SocketError.SocketTimeoutError => true
  | SocketError.RemoteHostClosedError => true
  | _ => false

/-- A signal of the socket that is connected to a slot of the client in
`deferredStart`. -/
inductive Notification
  | stateChanged (s : SocketState)
  | error (e : SocketError)
  deriving DecidableEq, Repr

/-- The socket has entered state `s` (it does so before it emits
`stateChanged(s)`). -/
def NetworkClient.setSocketState (s : SocketState) (c : NetworkClient) : NetworkClient :=
  { c with socket := c.socket.map fun sk => { sk with state := s } }

/-- Delivery of one notification to its slot. -/
def NetworkClient.deliver : Notification → NetworkClient → Option NetworkClient
  | Notification.stateChanged s, c => NetworkClient.onSocketStateChanged s (c.setSocketState s)
  | Notification.error e, c => NetworkClient.onSocketError e c

/-- Delivery of a sequence of notifications, in order. -/
def NetworkClient.deliverAll : List Notification → NetworkClient → Option NetworkClient
  | [], c => some c
  | n :: l, c => (NetworkClient.deliver n c).bind (NetworkClient.deliverAll l)

/-- Notifications of a socket that does not get connected: a state other than
`ConnectedState`, or an error of the ignored group. -/
def Notification.notConnected : Notification → Bool
  | Notification.stateChanged s => s != SocketState.ConnectedState
  | Notification.error e => e.ignored

/-- How a connection attempt fails: the connect timer fires, or the socket
reports an error. -/
inductive ConnectFailure
  | timeout
  | socketError (e : SocketError)
  deriving DecidableEq, Repr

/-- A failed connection attempt: what the socket reports after `deferredStart`,
and the failure that ends the attempt. -/
structure FailedAttempt where
  progress : List Notification
  failure : ConnectFailure
  deriving DecidableEq, Repr

/-- The attempt fails before the socket is connected: no notification of
`ConnectedState`, and the closing error is not of the ignored group. -/
def FailedAttempt.fails (a : FailedAttempt) : Bool :=
  a.progress.all Notification.notConnected &&
    match a.failure with
    | ConnectFailure.timeout => true
    | ConnectFailure.socketError e => !e.ignored

/-- One round: `deferredStart`, the notifications of the attempt, its failure. -/
def NetworkClient.failedAttempt (a : FailedAttempt) (c : NetworkClient) :
    Option NetworkClient :=
  (NetworkClient.deferredStart c).bind fun c =>
  (NetworkClient.deliverAll a.progress c).bind fun c =>
  match a.failure with
  | ConnectFailure.timeout => NetworkClient.onConnectTimeout c
  | ConnectFailure.socketError e => NetworkClient.onSocketError e c

/-- A sequence of rounds, each started by `deferredStart`. -/
def NetworkClient.failedAttempts : List FailedAttempt → NetworkClient → Option NetworkClient
  | [], c => some c
  | a :: l, c => (NetworkClient.failedAttempt a c).bind (NetworkClient.failedAttempts l)

/-- An invocation of the teardown path: `emitError`, `emitDone`, or a slot that
ends in `emitError`. -/
inductive Teardown
  | emitError (errTxt : String)
  | emitDone
  | onConnectTimeout
  | onSocketError (e : SocketError)
  deriving DecidableEq, Repr

/-- The slot call is a teardown: an ignored socket error is not. -/
def Teardown.tearsDown : Teardown → Bool
  | Teardown.onSocketError e => !e.ignored
  | _ => true

/-- One teardown invocation. -/
def NetworkClient.teardown : Teardown → NetworkClient → Option NetworkClient
  | Teardown.emitError t, c => NetworkClient.emitError t c
  | Teardown.emitDone, c => NetworkClient.emitDone c
  | Teardown.onConnectTimeout, c => NetworkClient.onConnectTimeout c
  | Teardown.onSocketError e, c => NetworkClient.onSocketError e c

/-- Teardown invocations in succession, with no `deferredStart` in between. -/
def NetworkClient.teardowns : List Teardown → NetworkClient → Option NetworkClient
  | [], c => some c
  | t :: l, c => (NetworkClient.teardown t c).bind (NetworkClient.teardowns l)

/-- The states of a client that its constructor, its slots and members, and
the notifications of its socket can produce.  A notification needs a socket
(the socket sends it), and `stateChanged(s)` finds the socket in state `s`. -/
inductive Reachable : NetworkClient → Prop
  | init (connectTimeout reconnectSleep : Nat) (dstHost : String) (dstPort : Nat) :
      Reachable (NetworkClient.new connectTimeout reconnectSleep dstHost dstPort)
  | deferredStart {c d : NetworkClient} :
      Reachable c → NetworkClient.deferredStart c = some d → Reachable d
  | onConnectTimeout {c d : NetworkClient} :
      Reachable c → NetworkClient.onConnectTimeout c = some d → Reachable d
  | onSocketStateChanged {c d : NetworkClient} (s : SocketState) :
      Reachable c → c.socket.isSome = true →
      NetworkClient.onSocketStateChanged s (c.setSocketState s) = some d → Reachable d
  | onSocketError {c d : NetworkClient} (e : SocketError) :
      Reachable c → c.socket.isSome = true →
      NetworkClient.onSocketError e c = some d → Reachable d
  | emitError {c d : NetworkClient} (errTxt : String) :
      Reachable c → NetworkClient.emitError errTxt c = some d → Reachable d
  | emitDone {c d : NetworkClient} :
      Reachable c → NetworkClient.emitDone c = some d → Reachable d
  | sureWrite {σ : Type} {c d : NetworkClient} (write : σ → List UInt8 → Int × σ)
      (fuel : Nat) (response : List UInt8) (t u : σ) :
      Reachable c → NetworkClient.sureWrite write fuel response t c = some (d, u) →
      Reachable d

/-- One operation or notification: a call of a slot or member that returns.  A
notification needs a socket (the socket sends it), and `stateChanged(s)` finds
the socket in state `s`. -/
inductive Step : NetworkClient → NetworkClient → Prop
  | deferredStart {c d : NetworkClient} :
      NetworkClient.deferredStart c = some d → Step c d
  | onConnectTimeout {c d : NetworkClient} :
      NetworkClient.onConnectTimeout c = some d → Step c d
  | onSocketStateChanged {c d : NetworkClient} (s : SocketState) :
      c.socket.isSome = true →
      NetworkClient.onSocketStateChanged s (c.setSocketState s) = some d → Step c d
  | onSocketError {c d : NetworkClient} (e : SocketError) :
      c.socket.isSome = true → NetworkClient.onSocketError e c = some d → Step c d
  | emitError {c d : NetworkClient} (errTxt : String) :
      NetworkClient.emitError errTxt c = some d → Step c d
  | emitDone {c d : NetworkClient} :
      NetworkClient.emitDone c = some d → Step c d
  | sureWrite {σ : Type} {c d : NetworkClient} (write : σ → List UInt8 → Int × σ)
      (fuel : Nat) (response : List UInt8) (t u : σ) :
      NetworkClient.sureWrite write fuel response t c = some (d, u) → Step c d

/-- The facts about counter, flag, timers and socket that every operation keeps. -/
def Coherent (c : NetworkClient) : Prop :=
  c.maxProtocolRetries = 10 ∧
  0 ≤ c.protocolRetry ∧
  c.protocolRetry ≤ c.maxProtocolRetries ∧
  (c.protocolStarted = true → 1 ≤ c.protocolRetry) ∧
  (c.protocolStarted = false → c.protocolRetry < c.maxProtocolRetries) ∧
  c.reconnectSleepTimer.active = false ∧
  (c.socket = none → c.protocolStarted = false ∧ c.connectTimeoutTimer.active = false)

/-- The connect timer runs only while the counter is below its bound. -/
def TimerBelowBound (c : NetworkClient) : Prop :=
  c.connectTimeoutTimer.active = true → c.protocolRetry < c.maxProtocolRetries

/-- The slot `deferredStart` called `n` times in a row. -/
def NetworkClient.deferredStarts : Nat → NetworkClient → Option NetworkClient
  | 0, c => some c
  | n + 1, c => (NetworkClient.deferredStart c).bind (NetworkClient.deferredStarts n)

/-- The client `sampleActive` after nine further calls of `deferredStart` on the
connected socket: each one ran `protocolStart`, and the counter is at its bound. -/
def NetworkClient.sampleExhausted : NetworkClient :=
  { NetworkClient.sampleActive with
    protocolRetry := 10
    socket := some { state := SocketState.ConnectedState, readWriteConnections := 10 } }

/-- The client `sampleActive` after one more `deferredStart` on its connected
socket. -/
def NetworkClient.sampleReactivated : NetworkClient :=
  { NetworkClient.sampleActive with
    protocolRetry := 2
    socket := some { state := SocketState.ConnectedState, readWriteConnections := 2 } }

/-- The client `sampleActive` after its socket entered `ClosingState` and
`deferredStart` was called: the protocol is started and the connect timer runs. -/
def NetworkClient.sampleClosing : NetworkClient :=
  { NetworkClient.sampleActive with
    connectTimeoutTimer := { interval := 100, singleShot := true, active := true }
    socket := some { state := SocketState.ClosingState, readWriteConnections := 1 } }

/-- A write side that accepts every block whole. -/
def acceptAll : Unit → List UInt8 → Int × Unit :=
  fun t data => ((data.length : Int), t)

/-- A write side that accepts up to three bytes on its first call and fails on
every later call. -/
def acceptThreeThenFail : Nat → List UInt8 → Int × Nat :=
  fun n data => if n = 0 then (((min 3 data.length : Nat) : Int), 1) else (-1, n + 1)

/-- The bytes of "PING". -/
def ping : List UInt8 := [80, 73, 78, 71]

/-- A buffer of ten bytes. -/
def tenBytes : List UInt8 := [0, 1, 2, 3, 4, 5, 6, 7, 8, 9]

/-! ## Basic facts about the output readers and the members -/

@[simp] theorem errorsOf_append (a b : List Effect) :
    errorsOf (a ++ b) = errorsOf a ++ errorsOf b := by
  induction a with
  | nil => rfl
  | cons x l ih => cases x <;> simp [errorsOf, ih]

@[simp] theorem doneCount_append (a b : List Effect) :
    doneCount (a ++ b) = doneCount a + doneCount b := by
  induction a with
  | nil => simp [doneCount]
  | cons x l ih =>
    cases x <;> simp [doneCount, ih]
    omega

@[simp] theorem connectCount_append (a b : List Effect) :
    connectCount (a ++ b) = connectCount a + connectCount b := by
  induction a with
  | nil => simp [connectCount]
  | cons x l ih =>
    cases x <;> simp [connectCount, ih]
    omega

@[simp] theorem abortCount_append (a b : List Effect) :
    abortCount (a ++ b) = abortCount a + abortCount b := by
  induction a with
  | nil => simp [abortCount]
  | cons x l ih =>
    cases x <;> simp [abortCount, ih]
    omega

theorem eventCount_append (a b : List Effect) :
    eventCount (a ++ b) = eventCount a + eventCount b := by
  simp [eventCount]; omega

namespace NetworkClient

/-- Closed form of `stopTimers`: both timers are idle afterwards and nothing
else changes. -/
theorem stopTimers_eq (c : NetworkClient) :
    stopTimers c =
      { c with connectTimeoutTimer := { c.connectTimeoutTimer with active := false },
               reconnectSleepTimer := { c.reconnectSleepTimer with active := false } } := by
  obtain ⟨h, p, r, m, st, ct, rs, ⟨i1, s1, a1⟩, ⟨i2, s2, a2⟩, sk, o⟩ := c
  cases a1 <;> cases a2 <;> rfl

/-- Closed form of `emitError` on a client that has a socket. -/
theorem emitError_eq (errTxt : String) (c : NetworkClient) (s : QAbstractSocket)
    (h : c.socket = some s) :
    emitError errTxt c = some
      (if c.protocolStarted then
        { c with protocolStarted := false, protocolRetry := c.protocolRetry - 1,
                 socket := some { state := SocketState.UnconnectedState,
                                  readWriteConnections := 0 },
                 out := c.out ++ [Effect.abort, Effect.abort, Effect.error errTxt] }
      else
        { c with connectTimeoutTimer := { c.connectTimeoutTimer with active := false },
                 reconnectSleepTimer := { c.reconnectSleepTimer with active := false },
                 socket := some { s with state := SocketState.UnconnectedState },
                 out := c.out ++ [Effect.abort, Effect.error errTxt] }) := by
  obtain ⟨h0, p, r, m, st, ct, rs, t1, t2, sk, o⟩ := c
  simp only at h
  subst h
  cases st <;>
    simp [emitError, protocolStop, socketAbort, stopTimers_eq, QAbstractSocket.abort,
      QAbstractSocket.disconnectReadWrite]

/-- Closed form of `emitDone` when the protocol is not started: the socket is
not touched. -/
theorem emitDone_of_not_started (c : NetworkClient) (h : c.protocolStarted = false) :
    emitDone c = some
      { c with connectTimeoutTimer := { c.connectTimeoutTimer with active := false },
               reconnectSleepTimer := { c.reconnectSleepTimer with active := false },
               out := c.out ++ [Effect.done] } := by
  simp [emitDone, h, stopTimers_eq]

/-- Closed form of `emitDone` when the protocol is started and a socket exists. -/
theorem emitDone_of_started (c : NetworkClient) (s : QAbstractSocket)
    (h : c.protocolStarted = true) (hs : c.socket = some s) :
    emitDone c = some
      { c with protocolStarted := false, protocolRetry := c.protocolRetry - 1,
               socket := some { state := SocketState.UnconnectedState,
                                readWriteConnections := 0 },
               out := c.out ++ [Effect.abort, Effect.done] } := by
  simp [emitDone, h, hs, protocolStop, socketAbort, QAbstractSocket.abort,
    QAbstractSocket.disconnectReadWrite]

theorem deferredStart_sampleIdle : deferredStart sampleIdle = some sampleConnecting := by
  decide

theorem onSocketStateChanged_sampleConnecting :
    onSocketStateChanged SocketState.ConnectedState
      { sampleConnecting with
        socket := some { state := SocketState.ConnectedState, readWriteConnections := 0 } }
      = some sampleActive := by
  decide

/-- What `emitError` does on a client that has a socket, read off its closed
form. -/
theorem emitError_spec (errTxt : String) (c : NetworkClient) (s : QAbstractSocket)
    (h : c.socket = some s) :
    ∃ d, emitError errTxt c = some d ∧
      d.protocolStarted = false ∧
      errorsOf d.out = errorsOf c.out ++ [errTxt] ∧
      doneCount d.out = doneCount c.out ∧
      connectCount d.out = connectCount c.out ∧
      abortCount c.out < abortCount d.out ∧
      (∃ n, d.socket = some { state := SocketState.UnconnectedState,
                              readWriteConnections := n }) ∧
      d.protocolRetry = (if c.protocolStarted then c.protocolRetry - 1 else c.protocolRetry) ∧
      d.maxProtocolRetries = c.maxProtocolRetries ∧
      d.connectTimeoutTimer.active = (c.protocolStarted && c.connectTimeoutTimer.active) ∧
      d.reconnectSleepTimer.active = (c.protocolStarted && c.reconnectSleepTimer.active) := by
  rw [emitError_eq errTxt c s h]
  cases hp : c.protocolStarted <;>
    simp [errorsOf, doneCount, connectCount, abortCount]

/-- What `emitDone` does on a client that has a socket. -/
theorem emitDone_spec (c : NetworkClient) (s : QAbstractSocket) (h : c.socket = some s) :
    ∃ d, emitDone c = some d ∧
      d.protocolStarted = false ∧
      errorsOf d.out = errorsOf c.out ∧
      doneCount d.out = doneCount c.out + 1 ∧
      connectCount d.out = connectCount c.out ∧
      d.socket.isSome = true := by
  cases hp : c.protocolStarted with
  | false =>
    exact ⟨_, emitDone_of_not_started c hp, by simp [hp, errorsOf, doneCount, connectCount, h]⟩
  | true =>
    exact ⟨_, emitDone_of_started c s hp h, by simp [errorsOf, doneCount, connectCount]⟩

/-- Setting the socket state twice keeps the last state. -/
theorem setSocketState_setSocketState (s t : SocketState) (c : NetworkClient) :
    (c.setSocketState s).setSocketState t = c.setSocketState t := by
  obtain ⟨h0, p, r, m, st, ct, rs, t1, t2, sk, o⟩ := c
  cases sk <;> rfl

/-- While the protocol is not started and the counter is below its bound, a
notification of a socket that does not get connected changes at most the state
of the socket. -/
theorem deliver_notConnected (n : Notification) (c : NetworkClient)
    (hp : c.protocolStarted = false) (hr : c.protocolRetry < c.maxProtocolRetries)
    (hn : n.notConnected = true) :
    deliver n c = some c ∨ ∃ s, deliver n c = some (c.setSocketState s) := by
  have hg : ¬ c.protocolRetry ≥ c.maxProtocolRetries := by omega
  cases n with
  | stateChanged s =>
    right
    refine ⟨s, ?_⟩
    cases s <;>
      simp_all [deliver, onSocketStateChanged, setSocketState, Notification.notConnected]
  | error e =>
    left
    cases e <;> simp_all [deliver, onSocketError, Notification.notConnected, SocketError.ignored]

/-- The same for a sequence of such notifications. -/
theorem deliverAll_notConnected (l : List Notification) (c : NetworkClient)
    (hp : c.protocolStarted = false) (hr : c.protocolRetry < c.maxProtocolRetries)
    (hl : ∀ n ∈ l, n.notConnected = true) :
    deliverAll l c = some c ∨ ∃ s, deliverAll l c = some (c.setSocketState s) := by
  induction l generalizing c with
  | nil => exact Or.inl rfl
  | cons n l ih =>
    have hn := hl n (List.mem_cons_self n l)
    have hl2 : ∀ m ∈ l, m.notConnected = true := fun m hm => hl m (List.mem_cons_of_mem n hm)
    rcases deliver_notConnected n c hp hr hn with h1 | ⟨s, h1⟩
    · simpa [deliverAll, h1] using ih c hp hr hl2
    · rcases ih (c.setSocketState s) hp hr hl2 with h2 | ⟨t, h2⟩
      · exact Or.inr ⟨s, by simp [deliverAll, h1, h2]⟩
      · exact Or.inr ⟨t, by simp [deliverAll, h1, h2, setSocketState_setSocketState]⟩

/-- Closed form of `deferredStart` on a constructed client. -/
theorem deferredStart_new (ct rs : Nat) (host : String) (port : Nat) :
    deferredStart (new ct rs host port) = some (connecting ct rs host port) := by
  simp [deferredStart, new, connecting, buildSocket, QTimer.isActive, QTimer.start,
    connectSocket, QAbstractSocket.connectToHost]

/-- A code outside the ignored group makes `onSocketError` call `emitError`. -/
theorem onSocketError_not_ignored (e : SocketError) (c : NetworkClient)
    (h : e.ignored = false) : ∃ t, onSocketError e c = emitError t c := by
  cases e <;> first
    | exact absurd h (by decide)
    | exact ⟨_, rfl⟩

/-- On a client whose protocol is not started, whose counter is below its bound
and whose socket is null or unconnected, `deferredStart` requests a connection
and emits nothing. -/
theorem deferredStart_connects (c : NetworkClient)
    (hp : c.protocolStarted = false) (hr : c.protocolRetry < c.maxProtocolRetries)
    (hs : c.socket = none ∨
      ∃ n, c.socket = some { state := SocketState.UnconnectedState, readWriteConnections := n }) :
    ∃ d, deferredStart c = some d ∧
      d.protocolStarted = false ∧
      d.protocolRetry = c.protocolRetry ∧
      d.maxProtocolRetries = c.maxProtocolRetries ∧
      d.socket.isSome = true ∧
      d.out = c.out ++ [Effect.connectToHost c.dstHost c.dstPort] := by
  obtain ⟨h0, p, r, m, st, ct, rs, ⟨i1, s1, a1⟩, ⟨i2, s2, a2⟩, sk, o⟩ := c
  simp only at hp hr hs
  have hg : ¬ r ≥ m := by omega
  rcases hs with rfl | ⟨n, rfl⟩ <;> cases a1 <;> cases a2 <;>
    simp [deferredStart, hg, hp, buildSocket, QTimer.isActive, QTimer.start, QTimer.stop,
      connectSocket, QAbstractSocket.connectToHost]

/-- One failed attempt on such a client: it returns to such a state, the counter
is untouched, one connection was requested and one `error` emitted. -/
theorem failedAttempt_round (a : FailedAttempt) (c : NetworkClient)
    (hp : c.protocolStarted = false) (hr : c.protocolRetry < c.maxProtocolRetries)
    (hs : c.socket = none ∨
      ∃ n, c.socket = some { state := SocketState.UnconnectedState, readWriteConnections := n })
    (ha : a.fails = true) :
    ∃ d, failedAttempt a c = some d ∧
      d.protocolStarted = false ∧
      d.protocolRetry = c.protocolRetry ∧
      d.maxProtocolRetries = c.maxProtocolRetries ∧
      (∃ n, d.socket = some { state := SocketState.UnconnectedState,
                              readWriteConnections := n }) ∧
      connectCount d.out = connectCount c.out + 1 ∧
      (errorsOf d.out).length = (errorsOf c.out).length + 1 ∧
      doneCount d.out = doneCount c.out := by
  obtain ⟨c1, h1, hp1, hr1, hm1, hs1, ho1⟩ := deferredStart_connects c hp hr hs
  obtain ⟨prog, fail⟩ := a
  simp only [FailedAttempt.fails, Bool.and_eq_true, List.all_eq_true] at ha
  obtain ⟨hprog, hfail⟩ := ha
  have hr1b : c1.protocolRetry < c1.maxProtocolRetries := by omega
  have mid : ∃ c2, deliverAll prog c1 = some c2 ∧ c2.protocolStarted = false ∧
      c2.protocolRetry = c1.protocolRetry ∧ c2.maxProtocolRetries = c1.maxProtocolRetries ∧
      c2.socket.isSome = true ∧ c2.out = c1.out := by
    rcases deliverAll_notConnected prog c1 hp1 hr1b hprog with h | ⟨s, h⟩
    · exact ⟨c1, h, hp1, rfl, rfl, hs1, rfl⟩
    · refine ⟨_, h, hp1, rfl, rfl, ?_, rfl⟩
      obtain ⟨sk, hsk⟩ := Option.isSome_iff_exists.mp hs1
      simp [setSocketState, hsk]
  obtain ⟨c2, h2, hp2, hr2, hm2, hs2, ho2⟩ := mid
  obtain ⟨sk, hsk⟩ := Option.isSome_iff_exists.mp hs2
  have fin : ∀ t, ∃ d, emitError t c2 = some d ∧
      d.protocolStarted = false ∧
      d.protocolRetry = c.protocolRetry ∧
      d.maxProtocolRetries = c.maxProtocolRetries ∧
      (∃ n, d.socket = some { state := SocketState.UnconnectedState,
                              readWriteConnections := n }) ∧
      connectCount d.out = connectCount c.out + 1 ∧
      (errorsOf d.out).length = (errorsOf c.out).length + 1 ∧
      doneCount d.out = doneCount c.out := by
    intro t
    obtain ⟨d, hd, e1, e2, e3, e4, -, e6, e7, e8, -⟩ := emitError_spec t c2 sk hsk
    refine ⟨d, hd, e1, ?_, ?_, e6, ?_, ?_, ?_⟩
    · simp [e7, hp2, hr2, hr1]
    · simp [e8, hm2, hm1]
    · simp [e4, ho2, ho1, connectCount]
    · simp [e2, ho2, ho1, errorsOf]
    · simp [e3, ho2, ho1, doneCount]
  cases fail with
  | timeout =>
    obtain ⟨d, hd, rest⟩ := fin "Connect timeout"
    exact ⟨d, by simp [failedAttempt, h1, h2, onConnectTimeout, hd], rest⟩
  | socketError e =>
    obtain ⟨t, ht⟩ := onSocketError_not_ignored e c2 (by simpa using hfail)
    obtain ⟨d, hd, rest⟩ := fin t
    exact ⟨d, by simp [failedAttempt, h1, h2, ht, hd], rest⟩

/-- Any number of failed attempts in a row, from such a state. -/
theorem failedAttempts_rounds (l : List FailedAttempt) (c : NetworkClient)
    (hp : c.protocolStarted = false) (hr : c.protocolRetry < c.maxProtocolRetries)
    (hs : c.socket = none ∨
      ∃ n, c.socket = some { state := SocketState.UnconnectedState, readWriteConnections := n })
    (hl : ∀ a ∈ l, a.fails = true) :
    ∃ d, failedAttempts l c = some d ∧
      d.protocolStarted = false ∧
      d.protocolRetry = c.protocolRetry ∧
      d.maxProtocolRetries = c.maxProtocolRetries ∧
      connectCount d.out = connectCount c.out + l.length ∧
      (errorsOf d.out).length = (errorsOf c.out).length + l.length ∧
      doneCount d.out = doneCount c.out := by
  induction l generalizing c with
  | nil => exact ⟨c, rfl, hp, rfl, rfl, by simp, by simp, rfl⟩
  | cons a l ih =>
    have ha := hl a (List.mem_cons_self a l)
    have hl2 : ∀ b ∈ l, b.fails = true := fun b hb => hl b (List.mem_cons_of_mem a hb)
    obtain ⟨c1, h1, hp1, hr1, hm1, hs1, hc1, he1, hd1⟩ := failedAttempt_round a c hp hr hs ha
    obtain ⟨d, h2, hp2, hr2, hm2, hc2, he2, hd2⟩ :=
      ih c1 hp1 (by omega) (Or.inr hs1) hl2
    refine ⟨d, by simp [failedAttempts, h1, h2], hp2, by omega, by omega, ?_, ?_, by omega⟩
    · simp only [hc2, hc1, List.length_cons]; omega
    · simp only [he2, he1, List.length_cons]; omega

/-- A call of `emitError` that returns had a socket. -/
theorem socket_of_emitError {errTxt : String} {c d : NetworkClient}
    (h : emitError errTxt c = some d) : ∃ s, c.socket = some s := by
  cases hs : c.socket with
  | some s => exact ⟨s, rfl⟩
  | none =>
    cases hp : c.protocolStarted <;>
      simp [emitError, protocolStop, socketAbort, stopTimers_eq, hs, hp] at h

theorem timerBelowBound_emitError {errTxt : String} {c d : NetworkClient}
    (hc : TimerBelowBound c) (h : emitError errTxt c = some d) : TimerBelowBound d := by
  obtain ⟨s, hs⟩ := socket_of_emitError h
  obtain ⟨d2, hd, -, -, -, -, -, -, e7, e8, e9, -⟩ := emitError_spec errTxt c s hs
  rw [h] at hd
  cases hd
  intro ht
  rw [e9] at ht
  simp only [Bool.and_eq_true] at ht
  have := hc ht.2
  rw [e7, e8, ht.1]
  simp only [if_true]
  omega

theorem timerBelowBound_protocolStart (c : NetworkClient) :
    TimerBelowBound (protocolStart c) := by
  intro ht
  simp [protocolStart, stopTimers_eq] at ht

theorem timerBelowBound_protocolStop {c d : NetworkClient}
    (hc : TimerBelowBound c) (h : protocolStop c = some d) : TimerBelowBound d := by
  cases hs : c.socket with
  | none => simp [protocolStop, socketAbort, hs] at h
  | some s =>
    simp only [protocolStop, socketAbort, hs, Option.map_some', Option.some.injEq] at h
    subst h
    intro ht
    have := hc ht
    show c.protocolRetry - 1 < c.maxProtocolRetries
    omega

theorem timerBelowBound_emitDone {c d : NetworkClient}
    (hc : TimerBelowBound c) (h : emitDone c = some d) : TimerBelowBound d := by
  cases hp : c.protocolStarted with
  | false =>
    rw [emitDone_of_not_started c hp] at h
    cases h
    intro ht
    simp at ht
  | true =>
    simp only [emitDone, hp, if_true] at h
    cases h2 : protocolStop c with
    | none => simp [h2] at h
    | some d2 =>
      simp only [h2, Option.some_bind, Option.some.injEq] at h
      have k := timerBelowBound_protocolStop hc h2
      rw [← h]
      exact k

theorem timerBelowBound_onSocketError {e : SocketError} {c d : NetworkClient}
    (hc : TimerBelowBound c) (h : onSocketError e c = some d) : TimerBelowBound d := by
  cases he : e.ignored with
  | true =>
    have : onSocketError e c = some c := by
      cases e <;> first
        | rfl
        | simp [SocketError.ignored] at he
    rw [this] at h
    cases h
    exact hc
  | false =>
    obtain ⟨t, ht⟩ := onSocketError_not_ignored e c he
    rw [ht] at h
    exact timerBelowBound_emitError hc h

theorem timerBelowBound_onSocketStateChanged {s : SocketState} {c d : NetworkClient}
    (hc : TimerBelowBound c) (h : onSocketStateChanged s c = some d) : TimerBelowBound d := by
  by_cases hg : c.protocolRetry ≥ c.maxProtocolRetries
  · simp only [onSocketStateChanged, hg, if_true] at h
    exact timerBelowBound_emitError hc h
  · simp only [onSocketStateChanged, hg, if_false] at h
    cases hp : c.protocolStarted <;> cases s <;> simp only [hp] at h <;>
      first
        | (cases h; exact hc)
        | (cases h; exact timerBelowBound_protocolStart c)
        | exact timerBelowBound_protocolStop hc h

theorem timerBelowBound_deferredStart {c d : NetworkClient}
    (hc : TimerBelowBound c) (h : deferredStart c = some d) : TimerBelowBound d := by
  obtain ⟨h0, p, r, m, st, ct, rs, ⟨i1, s1, a1⟩, ⟨i2, s2, a2⟩, sk, o⟩ := c
  by_cases hg : r ≥ m
  · have hc2 : ∀ sk2, TimerBelowBound
        ⟨h0, p, r, m, st, ct, rs, ⟨i1, s1, a1⟩, ⟨i2, s2, a2⟩, sk2, o⟩ := fun _ => hc
    cases sk with
    | none =>
      simp [deferredStart, hg] at h
      exact timerBelowBound_emitError (hc2 _) h
    | some s =>
      simp [deferredStart, hg] at h
      exact timerBelowBound_emitError hc h
  · have hlt : r < m := by omega
    cases sk with
    | none =>
      cases a1 <;> cases a2 <;>
        simp [deferredStart, hg, buildSocket, QTimer.isActive, QTimer.start, QTimer.stop,
          connectSocket, QAbstractSocket.connectToHost] at h <;>
        (subst h; intro _; exact hlt)
    | some s =>
      obtain ⟨ss, n⟩ := s
      cases ss <;> cases a1 <;> cases a2 <;>
        simp [deferredStart, hg, QTimer.isActive, QTimer.start, QTimer.stop,
          connectSocket, QAbstractSocket.connectToHost] at h <;>
        first
          | (subst h; intro _; exact hlt)
          | (subst h; exact timerBelowBound_protocolStart _)

/-- Whatever the socket answers, `sureWrite` changes nothing of the client but
its output, to which it adds `write` calls only. -/
theorem sureWriteLoop_frame {σ : Type} (write : σ → List UInt8 → Int × σ)
    (response : List UInt8) (fuel ptr : Nat) (len : Int) (t u : σ) (c d : NetworkClient)
    (h : sureWriteLoop write response fuel ptr len t c = some (d, u)) :
    ∃ calls, d = { c with out := c.out ++ writeEffects calls } := by
  induction fuel generalizing ptr len t c with
  | zero =>
    by_cases hl : len = 0
    · simp [sureWriteLoop, hl] at h
      exact ⟨[], by simp [writeEffects, ← h.1]⟩
    · simp [sureWriteLoop, hl] at h
  | succ fuel ih =>
    by_cases hl : len = 0
    · simp [sureWriteLoop, hl] at h
      exact ⟨[], by simp [writeEffects, ← h.1]⟩
    · cases hs : c.socket with
      | none => simp [sureWriteLoop, hl, hs] at h
      | some sk =>
        simp only [sureWriteLoop, hl, hs, if_false] at h
        split at h
        · simp only [Option.some.injEq, Prod.mk.injEq] at h
          exact ⟨[((response.drop ptr).take len.toNat,
              (write t ((response.drop ptr).take len.toNat)).1)],
            by simp [writeEffects, ← h.1, hs]⟩
        · obtain ⟨calls, hc⟩ := ih _ _ _ _ h
          exact ⟨((response.drop ptr).take len.toNat,
              (write t ((response.drop ptr).take len.toNat)).1) :: calls,
            by simp [writeEffects, hc, hs]⟩

theorem sureWrite_frame {σ : Type} {write : σ → List UInt8 → Int × σ} {fuel : Nat}
    {response : List UInt8} {t u : σ} {c d : NetworkClient}
    (h : sureWrite write fuel response t c = some (d, u)) :
    ∃ calls, d = { c with out := c.out ++ writeEffects calls } :=
  sureWriteLoop_frame write response fuel 0 _ t u c d h

theorem timerBelowBound_sureWrite {σ : Type} {write : σ → List UInt8 → Int × σ} {fuel : Nat}
    {response : List UInt8} {t u : σ} {c d : NetworkClient}
    (hc : TimerBelowBound c) (h : sureWrite write fuel response t c = some (d, u)) :
    TimerBelowBound d := by
  obtain ⟨calls, rfl⟩ := sureWrite_frame h
  exact hc

/-- In every reachable state the connect timer runs only while the counter is
below its bound. -/
theorem reachable_timerBelowBound {c : NetworkClient} (h : Reachable c) :
    TimerBelowBound c := by
  induction h with
  | init ct rs host port => intro ht; simp [new] at ht
  | deferredStart _ h ih => exact timerBelowBound_deferredStart ih h
  | onConnectTimeout _ h ih => exact timerBelowBound_emitError ih h
  | @onSocketStateChanged c d s _ _ h ih =>
    have ih2 : TimerBelowBound (c.setSocketState s) := ih
    exact timerBelowBound_onSocketStateChanged ih2 h
  | onSocketError e _ _ h ih => exact timerBelowBound_onSocketError ih h
  | emitError t _ h ih => exact timerBelowBound_emitError ih h
  | emitDone _ h ih => exact timerBelowBound_emitDone ih h
  | sureWrite _ _ _ _ _ _ h ih => exact timerBelowBound_sureWrite ih h

theorem reachable_deferredStarts (n : Nat) {c d : NetworkClient} (hc : Reachable c)
    (h : deferredStarts n c = some d) : Reachable d := by
  induction n generalizing c with
  | zero => cases h; exact hc
  | succ n ih =>
    cases h1 : deferredStart c with
    | none => simp [deferredStarts, h1] at h
    | some c1 =>
      simp only [deferredStarts, h1, Option.some_bind] at h
      exact ih (Reachable.deferredStart hc h1) h

theorem reachable_sampleActive : Reachable sampleActive :=
  Reachable.onSocketStateChanged (c := sampleConnecting) SocketState.ConnectedState
    (Reachable.deferredStart (Reachable.init 100 1000 "example.test" 9999)
      deferredStart_sampleIdle)
    rfl (by decide)

theorem reachable_sampleExhausted : Reachable sampleExhausted :=
  reachable_deferredStarts 9 reachable_sampleActive (by decide)

/-- The loop of `sureWrite` on a socket whose `write`, offered a non-empty
block, either fails (negative result) or accepts between one byte and the whole
block.  With `rest` the bytes from `ptr` on and at least as many iterations
allowed as `rest` is long, the loop ends; every call is offered what is left;
the first call gets `rest` itself; and either all calls accepted bytes and
together all of `rest`, or the last call failed and the calls before it
accepted a prefix, the rest of which the failing call was offered. -/
theorem sureWriteLoop_spec {σ : Type} (write : σ → List UInt8 → Int × σ)
    (response : List UInt8)
    (hw : ∀ t data, data ≠ [] →
      (write t data).1 < 0 ∨ (1 ≤ (write t data).1 ∧ (write t data).1 ≤ data.length))
    (fuel ptr : Nat) (rest : List UInt8) (t : σ) (c : NetworkClient)
    (hrest : response.drop ptr = rest)
    (hs : c.socket.isSome = true) (hf : rest.length ≤ fuel) :
    ∃ d u calls,
      sureWriteLoop write response fuel ptr (rest.length : Int) t c = some (d, u) ∧
      d = { c with out := c.out ++ writeEffects calls } ∧
      calls.length ≤ rest.length ∧
      offersSuffixes rest calls = true ∧
      (∀ p ∈ calls, p.1 ≠ [] ∧ ∃ v, p.2 = (write v p.1).1) ∧
      (rest ≠ [] → ∃ l, calls = (rest, (write t rest).1) :: l) ∧
      (((∀ p ∈ calls, 1 ≤ p.2) ∧ acceptedBytes calls = rest) ∨
       (∃ init last r, calls = init ++ [(last, r)] ∧ r < 0 ∧ (∀ p ∈ init, 1 ≤ p.2) ∧
          last ≠ [] ∧ acceptedBytes init ++ last = rest)) := by
  induction fuel generalizing ptr rest t c with
  | zero =>
    have hnil : rest = [] := List.length_eq_zero.mp (by omega)
    subst hnil
    exact ⟨c, t, [], by simp [sureWriteLoop], by simp [writeEffects], by simp,
      by simp [offersSuffixes], by simp, by simp, Or.inl ⟨by simp, by simp [acceptedBytes]⟩⟩
  | succ fuel ih =>
    by_cases hnil : rest = []
    · subst hnil
      exact ⟨c, t, [], by simp [sureWriteLoop], by simp [writeEffects], by simp,
        by simp [offersSuffixes], by simp, by simp, Or.inl ⟨by simp, by simp [acceptedBytes]⟩⟩
    · obtain ⟨sk, hsk⟩ := Option.isSome_iff_exists.mp hs
      have hpos : 0 < rest.length := List.length_pos.mpr hnil
      have hlen : ¬ ((rest.length : Int) = 0) := by omega
      have hoff : (response.drop ptr).take rest.length = rest := by
        rw [hrest]; simp
      by_cases hneg : (write t rest).1 < 0
      · refine ⟨{ c with out := c.out ++ [Effect.write rest (write t rest).1] },
          (write t rest).2, [(rest, (write t rest).1)], ?_, ?_, ?_, ?_, ?_,
          fun _ => ⟨[], rfl⟩, ?_⟩
        · simp [sureWriteLoop, hlen, hsk, hoff, hneg]
        · simp [writeEffects]
        · simpa using hpos
        · simp [offersSuffixes]
        · intro p hp
          simp only [List.mem_singleton] at hp
          subst hp
          exact ⟨hnil, t, rfl⟩
        · exact Or.inr ⟨[], rest, (write t rest).1, by simp, hneg, by simp, hnil,
            by simp [acceptedBytes]⟩
      · rcases hw t rest hnil with hbad | ⟨h1, h2⟩
        · exact absurd hbad hneg
        · have hk : (write t rest).1.toNat ≤ rest.length := by omega
          have hk1 : 1 ≤ (write t rest).1.toNat := by omega
          have hrest2 : response.drop (ptr + (write t rest).1.toNat)
              = rest.drop (write t rest).1.toNat := by
            rw [← hrest, List.drop_drop]
          have hlen2 : ((rest.length : Int) - (write t rest).1)
              = ((rest.drop (write t rest).1.toNat).length : Int) := by
            rw [List.length_drop]
            omega
          have hs2 : ({ c with out := c.out ++ [Effect.write rest (write t rest).1] }
              : NetworkClient).socket.isSome = true := hs
          obtain ⟨d, u, calls, hrun, hd, hcl, hoffs, hmem, -, hout⟩ :=
            ih (ptr + (write t rest).1.toNat) (rest.drop (write t rest).1.toNat)
              (write t rest).2
              { c with out := c.out ++ [Effect.write rest (write t rest).1] }
              hrest2 hs2 (by rw [List.length_drop]; omega)
          refine ⟨d, u, (rest, (write t rest).1) :: calls, ?_, ?_, ?_, ?_, ?_,
            fun _ => ⟨calls, rfl⟩, ?_⟩
          · rw [← hlen2] at hrun
            simp only [hsk] at hrun
            simp [sureWriteLoop, hlen, hsk, hoff, hneg, hrun]
          · rw [hd]
            simp [writeEffects]
          · rw [List.length_drop] at hcl
            simp only [List.length_cons]
            omega
          · simp [offersSuffixes, hoffs]
          · intro p hp
            rcases List.mem_cons.mp hp with rfl | hp
            · exact ⟨hnil, t, rfl⟩
            · exact hmem p hp
          · rcases hout with ⟨hall, hacc⟩ | ⟨init, last, r, hc, hr, hall, hl, hacc⟩
            · refine Or.inl ⟨?_, ?_⟩
              · intro p hp
                rcases List.mem_cons.mp hp with rfl | hp
                · exact h1
                · exact hall p hp
              · simp [acceptedBytes, hacc]
            · refine Or.inr ⟨(rest, (write t rest).1) :: init, last, r, by simp [hc], hr,
                ?_, hl, ?_⟩
              · intro p hp
                rcases List.mem_cons.mp hp with rfl | hp
                · exact h1
                · exact hall p hp
              · simp [acceptedBytes, List.append_assoc, hacc]


/-! ### The invariant `Coherent` -/

theorem coherent_emitError {errTxt : String} {c d : NetworkClient}
    (hc : Coherent c) (h : emitError errTxt c = some d) : Coherent d := by
  obtain ⟨s, hs⟩ := socket_of_emitError h
  rw [emitError_eq errTxt c s hs] at h
  obtain ⟨h1, h2, h3, h4, h5, h6, h7⟩ := hc
  cases hp : c.protocolStarted
  · simp only [hp, Bool.false_eq_true, if_false, Option.some.injEq] at h
    subst h
    have := h5 hp
    refine ⟨h1, h2, h3, ?_, ?_, rfl, ?_⟩
    all_goals simp [hp]
    all_goals omega
  · simp only [hp, if_true, Option.some.injEq] at h
    subst h
    have := h4 hp
    refine ⟨h1, ?_, ?_, ?_, ?_, h6, ?_⟩
    all_goals simp
    all_goals omega

theorem coherent_protocolStart {c : NetworkClient} (hc : Coherent c)
    (hr : c.protocolRetry < c.maxProtocolRetries) (hs : c.socket.isSome = true) :
    Coherent (protocolStart c) := by
  obtain ⟨h1, h2, h3, h4, h5, h6, h7⟩ := hc
  obtain ⟨s, hsk⟩ := Option.isSome_iff_exists.mp hs
  refine ⟨?_, ?_, ?_, ?_, ?_, ?_, ?_⟩
  all_goals simp [protocolStart, stopTimers_eq, hsk]
  all_goals omega

theorem coherent_protocolStop {c d : NetworkClient} (hc : Coherent c)
    (hp : c.protocolStarted = true) (h : protocolStop c = some d) : Coherent d := by
  obtain ⟨h1, h2, h3, h4, h5, h6, h7⟩ := hc
  have := h4 hp
  cases hs : c.socket with
  | none => simp [protocolStop, socketAbort, hs] at h
  | some s =>
    simp only [protocolStop, socketAbort, hs, Option.map_some', Option.some.injEq] at h
    subst h
    refine ⟨h1, ?_, ?_, ?_, ?_, h6, ?_⟩
    all_goals simp
    all_goals omega

theorem coherent_emitDone {c d : NetworkClient}
    (hc : Coherent c) (h : emitDone c = some d) : Coherent d := by
  cases hp : c.protocolStarted with
  | false =>
    rw [emitDone_of_not_started c hp] at h
    cases h
    obtain ⟨h1, h2, h3, h4, h5, h6, h7⟩ := hc
    have := h5 hp
    refine ⟨h1, h2, h3, ?_, ?_, rfl, ?_⟩
    all_goals simp [hp]
    all_goals omega
  | true =>
    simp only [emitDone, hp, if_true] at h
    cases h2 : protocolStop c with
    | none => simp [h2] at h
    | some d2 =>
      simp only [h2, Option.some_bind, Option.some.injEq] at h
      have k := coherent_protocolStop hc hp h2
      rw [← h]
      exact k

theorem coherent_onSocketError {e : SocketError} {c d : NetworkClient}
    (hc : Coherent c) (h : onSocketError e c = some d) : Coherent d := by
  cases he : e.ignored with
  | true =>
    have : onSocketError e c = some c := by
      cases e <;> first
        | rfl
        | simp [SocketError.ignored] at he
    rw [this] at h
    cases h
    exact hc
  | false =>
    obtain ⟨t, ht⟩ := onSocketError_not_ignored e c he
    rw [ht] at h
    exact coherent_emitError hc h

theorem coherent_onSocketStateChanged {s : SocketState} {c d : NetworkClient}
    (hc : Coherent c) (hs : c.socket.isSome = true)
    (h : onSocketStateChanged s c = some d) : Coherent d := by
  by_cases hg : c.protocolRetry ≥ c.maxProtocolRetries
  · simp only [onSocketStateChanged, hg, if_true] at h
    exact coherent_emitError hc h
  · simp only [onSocketStateChanged, hg, if_false] at h
    have hlt : c.protocolRetry < c.maxProtocolRetries := by omega
    cases hp : c.protocolStarted <;> cases s <;> simp only [hp] at h <;>
      first
        | (cases h; exact hc)
        | (cases h; exact coherent_protocolStart hc hlt hs)
        | exact coherent_protocolStop hc hp h

theorem coherent_setSocketState (s : SocketState) {c : NetworkClient} (hc : Coherent c) :
    Coherent (c.setSocketState s) := by
  obtain ⟨h1, h2, h3, h4, h5, h6, h7⟩ := hc
  refine ⟨h1, h2, h3, h4, h5, h6, ?_⟩
  intro hn
  apply h7
  cases hs : c.socket with
  | none => rfl
  | some sk => simp [setSocketState, hs] at hn

theorem coherent_deferredStart {c d : NetworkClient}
    (hc : Coherent c) (h : deferredStart c = some d) : Coherent d := by
  obtain ⟨h0, p, r, m, st, ct, rs, ⟨i1, s1, a1⟩, ⟨i2, s2, a2⟩, sk, o⟩ := c
  obtain ⟨h1, h2, h3, h4, h5, h6, h7⟩ := hc
  simp only at h1 h2 h3 h4 h5 h6 h7
  subst h6
  by_cases hg : r ≥ m
  · have hst : st = true := by
      cases st with
      | true => rfl
      | false => have := h5 rfl; omega
    have hc2 : ∀ sk2 : QAbstractSocket, Coherent
        ⟨h0, p, r, m, st, ct, rs, ⟨i1, s1, a1⟩, ⟨i2, s2, false⟩, some sk2, o⟩ :=
      fun _ => ⟨h1, h2, h3, h4, h5, rfl, by simp⟩
    cases sk with
    | none =>
      simp [deferredStart, hg] at h
      exact coherent_emitError (hc2 _) h
    | some s =>
      simp [deferredStart, hg] at h
      exact coherent_emitError (hc2 s) h
  · have hlt : r < m := by omega
    cases sk with
    | none =>
      have hst := (h7 rfl).1
      subst hst
      cases a1 <;>
        simp [deferredStart, hg, buildSocket, QTimer.isActive, QTimer.start, QTimer.stop,
          connectSocket, QAbstractSocket.connectToHost] at h <;>
        (subst h; exact ⟨h1, h2, h3, h4, h5, rfl, by simp⟩)
    | some s =>
      obtain ⟨ss, n⟩ := s
      have base : ∀ (t1 : QTimer) (sk2 : QAbstractSocket) (o2 : List Effect), Coherent
          ⟨h0, p, r, m, st, ct, rs, t1, ⟨i2, s2, false⟩, some sk2, o2⟩ :=
        fun _ _ _ => ⟨h1, h2, h3, h4, h5, rfl, by simp⟩
      cases ss <;> cases a1 <;>
        simp [deferredStart, hg, QTimer.isActive, QTimer.start, QTimer.stop,
          connectSocket, QAbstractSocket.connectToHost] at h <;>
        first
          | (subst h; exact base _ _ _)
          | (subst h; exact coherent_protocolStart (base _ _ _) hlt rfl)

theorem coherent_sureWrite {σ : Type} {write : σ → List UInt8 → Int × σ} {fuel : Nat}
    {response : List UInt8} {t u : σ} {c d : NetworkClient}
    (hc : Coherent c) (h : sureWrite write fuel response t c = some (d, u)) :
    Coherent d := by
  obtain ⟨calls, rfl⟩ := sureWrite_frame h
  exact hc

theorem coherent_step {c d : NetworkClient} (hc : Coherent c) (h : Step c d) :
    Coherent d := by
  cases h with
  | deferredStart h => exact coherent_deferredStart hc h
  | onConnectTimeout h => exact coherent_emitError hc h
  | onSocketStateChanged s hs h =>
    refine coherent_onSocketStateChanged (coherent_setSocketState s hc) ?_ h
    obtain ⟨sk, hsk⟩ := Option.isSome_iff_exists.mp hs
    simp [setSocketState, hsk]
  | onSocketError e _ h => exact coherent_onSocketError hc h
  | emitError t h => exact coherent_emitError hc h
  | emitDone h => exact coherent_emitDone hc h
  | sureWrite _ _ _ _ _ h => exact coherent_sureWrite hc h

theorem Reachable.step {c d : NetworkClient} (hc : Reachable c) (h : Step c d) :
    Reachable d := by
  cases h with
  | deferredStart h => exact Reachable.deferredStart hc h
  | onConnectTimeout h => exact Reachable.onConnectTimeout hc h
  | onSocketStateChanged s hs h => exact Reachable.onSocketStateChanged s hc hs h
  | onSocketError e hs h => exact Reachable.onSocketError e hc hs h
  | emitError t h => exact Reachable.emitError t hc h
  | emitDone h => exact Reachable.emitDone hc h
  | sureWrite w f r t u h => exact Reachable.sureWrite w f r t u hc h

/-- Every reachable state is coherent. -/
theorem reachable_coherent {c : NetworkClient} (h : Reachable c) : Coherent c := by
  induction h with
  | init ct rs host port => exact ⟨rfl, by simp [new], by simp [new], by simp [new],
      by simp [new], rfl, by simp [new]⟩
  | deferredStart _ h ih => exact coherent_step ih (Step.deferredStart h)
  | onConnectTimeout _ h ih => exact coherent_step ih (Step.onConnectTimeout h)
  | onSocketStateChanged s _ hs h ih => exact coherent_step ih (Step.onSocketStateChanged s hs h)
  | onSocketError e _ hs h ih => exact coherent_step ih (Step.onSocketError e hs h)
  | emitError t _ h ih => exact coherent_step ih (Step.emitError t h)
  | emitDone _ h ih => exact coherent_step ih (Step.emitDone h)
  | sureWrite w f r t u _ h ih => exact coherent_step ih (Step.sureWrite w f r t u h)


/-! ### Further facts used below -/

@[simp] theorem errorsOf_writeEffects (calls : List (List UInt8 × Int)) :
    errorsOf (writeEffects calls) = [] := by
  induction calls with
  | nil => rfl
  | cons p l ih => simpa [writeEffects, errorsOf] using ih

@[simp] theorem doneCount_writeEffects (calls : List (List UInt8 × Int)) :
    doneCount (writeEffects calls) = 0 := by
  induction calls with
  | nil => rfl
  | cons p l ih => simpa [writeEffects, doneCount] using ih

@[simp] theorem connectCount_writeEffects (calls : List (List UInt8 × Int)) :
    connectCount (writeEffects calls) = 0 := by
  induction calls with
  | nil => rfl
  | cons p l ih => simpa [writeEffects, connectCount] using ih

theorem acceptedBytes_append (a b : List (List UInt8 × Int)) :
    acceptedBytes (a ++ b) = acceptedBytes a ++ acceptedBytes b := by
  induction a with
  | nil => rfl
  | cons p l ih =>
    obtain ⟨d, r⟩ := p
    simp [acceptedBytes, ih]

theorem acceptThreeThenFail_answers (n : Nat) (data : List UInt8) (h : data ≠ []) :
    (acceptThreeThenFail n data).1 < 0 ∨
      (1 ≤ (acceptThreeThenFail n data).1 ∧
        (acceptThreeThenFail n data).1 ≤ data.length) := by
  have hpos : 0 < data.length := List.length_pos.mpr h
  by_cases hn : n = 0
  · right
    simp only [acceptThreeThenFail, hn, if_true]
    omega
  · left
    simp [acceptThreeThenFail, hn]

theorem acceptAll_answers (t : Unit) (data : List UInt8) (h : data ≠ []) :
    1 ≤ (acceptAll t data).1 ∧ (acceptAll t data).1 ≤ data.length := by
  have hpos : 0 < data.length := List.length_pos.mpr h
  simp only [acceptAll]
  omega

/-- The flag `protocolStarted` plays no part in `sureWrite`. -/
theorem sureWriteLoop_protocolStarted {σ : Type} (write : σ → List UInt8 → Int × σ)
    (response : List UInt8) (b : Bool) (fuel ptr : Nat) (len : Int) (t : σ)
    (c : NetworkClient) :
    sureWriteLoop write response fuel ptr len t { c with protocolStarted := b } =
      (sureWriteLoop write response fuel ptr len t c).map
        (fun p => ({ p.1 with protocolStarted := b }, p.2)) := by
  induction fuel generalizing ptr len t c with
  | zero => by_cases hl : len = 0 <;> simp [sureWriteLoop, hl]
  | succ fuel ih =>
    by_cases hl : len = 0
    · simp [sureWriteLoop, hl]
    · cases hs : c.socket with
      | none => simp [sureWriteLoop, hl, hs]
      | some sk =>
        simp only [sureWriteLoop, hl, hs, if_false]
        split
        · simp
        · rw [← ih]

/-- A call of `deferredStart` that returns leaves a socket. -/
theorem socket_of_deferredStart {c d : NetworkClient} (h : deferredStart c = some d) :
    d.socket.isSome = true := by
  obtain ⟨h0, p, r, m, st, ct, rs, ⟨i1, s1, a1⟩, ⟨i2, s2, a2⟩, sk, o⟩ := c
  by_cases hg : r ≥ m
  · cases sk with
    | none =>
      simp [deferredStart, hg] at h
      obtain ⟨d2, hd, -, -, -, -, -, ⟨n, e6⟩, -⟩ := emitError_spec _ _ buildSocket
        (rfl : (⟨h0, p, r, m, st, ct, rs, ⟨i1, s1, a1⟩, ⟨i2, s2, a2⟩, some buildSocket, o⟩
          : NetworkClient).socket = some buildSocket)
      rw [h] at hd
      cases hd
      simp [e6]
    | some s =>
      simp [deferredStart, hg] at h
      obtain ⟨d2, hd, -, -, -, -, -, ⟨n, e6⟩, -⟩ := emitError_spec _ _ s
        (rfl : (⟨h0, p, r, m, st, ct, rs, ⟨i1, s1, a1⟩, ⟨i2, s2, a2⟩, some s, o⟩
          : NetworkClient).socket = some s)
      rw [h] at hd
      cases hd
      simp [e6]
  · cases sk with
    | none =>
      cases a1 <;> cases a2 <;>
        simp [deferredStart, hg, buildSocket, QTimer.isActive, QTimer.start, QTimer.stop,
          connectSocket, QAbstractSocket.connectToHost] at h <;>
        (subst h; rfl)
    | some s =>
      obtain ⟨ss, n⟩ := s
      cases ss <;> cases a1 <;> cases a2 <;>
        simp [deferredStart, hg, QTimer.isActive, QTimer.start, QTimer.stop,
          connectSocket, QAbstractSocket.connectToHost, protocolStart, stopTimers_eq] at h <;>
        (subst h; rfl)

/-- A notification delivered to a client with a socket returns. -/
theorem onSocketStateChanged_isSome (s : SocketState) (c : NetworkClient)
    (hs : c.socket.isSome = true) : (onSocketStateChanged s c).isSome = true := by
  obtain ⟨sk, hsk⟩ := Option.isSome_iff_exists.mp hs
  by_cases hg : c.protocolRetry ≥ c.maxProtocolRetries
  · obtain ⟨d, hd, -⟩ := emitError_spec "maxProtocolRetries reached" c sk hsk
    simp [onSocketStateChanged, hg, hd]
  · cases hp : c.protocolStarted <;> cases s <;>
      simp [onSocketStateChanged, hg, hp, protocolStop, socketAbort, hsk]

theorem onSocketError_isSome (e : SocketError) (c : NetworkClient)
    (hs : c.socket.isSome = true) : (onSocketError e c).isSome = true := by
  obtain ⟨sk, hsk⟩ := Option.isSome_iff_exists.mp hs
  cases he : e.ignored with
  | true =>
    have : onSocketError e c = some c := by
      cases e <;> first
        | rfl
        | simp [SocketError.ignored] at he
    simp [this]
  | false =>
    obtain ⟨t, ht⟩ := onSocketError_not_ignored e c he
    obtain ⟨d, hd, -⟩ := emitError_spec t c sk hsk
    simp [ht, hd]

/-- A state notification that returns leaves the socket in place. -/
theorem socket_of_onSocketStateChanged {s : SocketState} {c d : NetworkClient}
    (hs : c.socket.isSome = true) (h : onSocketStateChanged s c = some d) :
    d.socket.isSome = true := by
  obtain ⟨sk, hsk⟩ := Option.isSome_iff_exists.mp hs
  by_cases hg : c.protocolRetry ≥ c.maxProtocolRetries
  · simp only [onSocketStateChanged, hg, if_true] at h
    obtain ⟨d3, hd, -, -, -, -, -, ⟨n, e6⟩, -⟩ :=
      emitError_spec "maxProtocolRetries reached" c sk hsk
    rw [h] at hd
    cases hd
    simp [e6]
  · simp only [onSocketStateChanged, hg, if_false] at h
    cases hp : c.protocolStarted <;> cases s <;>
      simp [hp, protocolStart, stopTimers_eq, protocolStop, socketAbort, hsk] at h <;>
      (subst h; simp [hsk])

/-- No operation takes the socket away. -/
theorem socket_kept_by_step {c d : NetworkClient} (h : Step c d)
    (hs : c.socket.isSome = true) : d.socket.isSome = true := by
  obtain ⟨sk, hsk⟩ := Option.isSome_iff_exists.mp hs
  have err : ∀ (t : String) (c2 d2 : NetworkClient), c2.socket.isSome = true →
      emitError t c2 = some d2 → d2.socket.isSome = true := by
    intro t c2 d2 h2 he
    obtain ⟨sk2, hsk2⟩ := Option.isSome_iff_exists.mp h2
    obtain ⟨d3, hd, -, -, -, -, -, ⟨n, e6⟩, -⟩ := emitError_spec t c2 sk2 hsk2
    rw [he] at hd
    cases hd
    simp [e6]
  cases h with
  | deferredStart h => exact socket_of_deferredStart h
  | onConnectTimeout h => exact err _ _ _ hs h
  | onSocketStateChanged s _ h =>
    exact socket_of_onSocketStateChanged (by simp [setSocketState, hsk]) h
  | onSocketError e _ h =>
    cases he : e.ignored with
    | true =>
      have : onSocketError e c = some c := by
        cases e <;> first
          | rfl
          | simp [SocketError.ignored] at he
      rw [this] at h
      cases h
      exact hs
    | false =>
      obtain ⟨t, ht⟩ := onSocketError_not_ignored e c he
      rw [ht] at h
      exact err _ _ _ hs h
  | emitError t h => exact err _ _ _ hs h
  | emitDone h =>
    obtain ⟨d2, hd, -, -, -, -, e5⟩ := emitDone_spec c sk hsk
    rw [h] at hd
    cases hd
    exact e5
  | sureWrite _ _ _ _ _ h =>
    obtain ⟨calls, rfl⟩ := sureWrite_frame h
    exact hs

theorem reachable_sampleConnecting : Reachable sampleConnecting :=
  Reachable.deferredStart (Reachable.init 100 1000 "example.test" 9999)
    deferredStart_sampleIdle

theorem deferredStart_sampleActive : deferredStart sampleActive = some sampleReactivated := by
  decide

theorem reachable_sampleReactivated : Reachable sampleReactivated :=
  Reachable.deferredStart reachable_sampleActive deferredStart_sampleActive

theorem reachable_sampleClosing : Reachable sampleClosing :=
  Reachable.deferredStart
    (Reachable.onSocketStateChanged (c := sampleActive) SocketState.ClosingState
      reachable_sampleActive rfl rfl)
    (by decide)

/-! ## Properties of the specification -/

/-- C1 (as stated, refuted): eleven rounds of `deferredStart` followed by the
connect timeout, on a constructed client, issue eleven `connectToHost` requests,
one more than `maxProtocolRetries = 10`. -/
theorem eleventh_connection_attempt_is_made :
    (failedAttempts (List.replicate 11 { progress := [], failure := ConnectFailure.timeout })
        sampleIdle).map (fun c => (connectCount c.out, c.maxProtocolRetries, c.protocolRetry))
      = some (11, 10, 0) := by
  decide

/-- C1 (amended): `protocolRetry` counts protocol starts, not failed connection
attempts.  For every sequence of rounds on a constructed client in which each
attempt fails before the socket reports `ConnectedState` (the connect timer
fires, or an error outside the ignored group arrives), every round returns,
`protocolRetry` stays 0 below `maxProtocolRetries = 10`, and every
`deferredStart` issues one `connectToHost` request: `n` rounds issue exactly `n`
requests and emit exactly `n` errors (the failures), for every `n`. -/
theorem failed_attempts_all_connect (ct rs : Nat) (host : String) (port : Nat)
    (l : List FailedAttempt) (hl : ∀ a ∈ l, a.fails = true) :
    ∃ d, failedAttempts l (new ct rs host port) = some d ∧
      d.protocolRetry = 0 ∧
      d.maxProtocolRetries = 10 ∧
      d.protocolStarted = false ∧
      connectCount d.out = l.length ∧
      (errorsOf d.out).length = l.length ∧
      doneCount d.out = 0 := by
  obtain ⟨d, h, hp, hr, hm, hc, he, hd⟩ :=
    failedAttempts_rounds l (new ct rs host port) rfl (by simp [new]) (Or.inl rfl) hl
  refine ⟨d, h, hr, hm, hp, ?_, ?_, ?_⟩
  · simpa [new, connectCount] using hc
  · simpa [new, errorsOf] using he
  · simpa [new, doneCount] using hd

theorem failed_attempts_all_connect_witness :
    ∃ d, failedAttempts
        (List.replicate 12
          { progress := [Notification.stateChanged SocketState.ConnectingState],
            failure := ConnectFailure.socketError SocketError.HostNotFoundError })
        (new 100 1000 "example.test" 9999) = some d ∧
      d.protocolRetry = 0 ∧
      d.maxProtocolRetries = 10 ∧
      d.protocolStarted = false ∧
      connectCount d.out =
        (List.replicate 12
          { progress := [Notification.stateChanged SocketState.ConnectingState],
            failure := ConnectFailure.socketError SocketError.HostNotFoundError
            : FailedAttempt }).length ∧
      (errorsOf d.out).length =
        (List.replicate 12
          { progress := [Notification.stateChanged SocketState.ConnectingState],
            failure := ConnectFailure.socketError SocketError.HostNotFoundError
            : FailedAttempt }).length ∧
      doneCount d.out = 0 :=
  failed_attempts_all_connect 100 1000 "example.test" 9999 _ (by decide)

/-- C2: for every state with `protocolRetry >= maxProtocolRetries`,
`deferredStart` returns and emits exactly one `error`, with the message "Maximum
protocol retries has reached", and no `done`; it issues no `connectToHost`
request; it does not run `protocolStart` (the protocol is stopped afterwards and
the counter has not grown); and it never starts the connect timer: the timer is
idle afterwards unless the protocol was started with the timer already running,
which no reachable state with the counter at its bound allows, so in every
reachable state the connect timer is idle afterwards. -/
theorem deferredStart_at_bound (c : NetworkClient)
    (hr : c.protocolRetry ≥ c.maxProtocolRetries) :
    ∃ d, deferredStart c = some d ∧
      errorsOf d.out = errorsOf c.out ++ ["Maximum protocol retries has reached"] ∧
      doneCount d.out = doneCount c.out ∧
      connectCount d.out = connectCount c.out ∧
      d.protocolStarted = false ∧
      d.protocolRetry ≤ c.protocolRetry ∧
      (d.connectTimeoutTimer.isActive = true →
        c.protocolStarted = true ∧ c.connectTimeoutTimer.isActive = true) ∧
      (Reachable c → d.connectTimeoutTimer.isActive = false) := by
  have inv : Reachable c → c.connectTimeoutTimer.active = false := by
    intro hreach
    have hb := reachable_timerBelowBound hreach
    cases ha : c.connectTimeoutTimer.active with
    | false => rfl
    | true => have := hb ha; omega
  have main : ∀ c2 s, c2.socket = some s → deferredStart c = emitError
      "Maximum protocol retries has reached" c2 → c2.out = c.out →
      c2.protocolStarted = c.protocolStarted → c2.protocolRetry = c.protocolRetry →
      c2.connectTimeoutTimer = c.connectTimeoutTimer →
      ∃ d, deferredStart c = some d ∧
        errorsOf d.out = errorsOf c.out ++ ["Maximum protocol retries has reached"] ∧
        doneCount d.out = doneCount c.out ∧
        connectCount d.out = connectCount c.out ∧
        d.protocolStarted = false ∧
        d.protocolRetry ≤ c.protocolRetry ∧
        (d.connectTimeoutTimer.isActive = true →
          c.protocolStarted = true ∧ c.connectTimeoutTimer.isActive = true) ∧
        (Reachable c → d.connectTimeoutTimer.isActive = false) := by
    intro c2 s hs heq ho hp hrr ht
    obtain ⟨d, hd, e1, e2, e3, e4, -, -, e7, -, e9, -⟩ :=
      emitError_spec "Maximum protocol retries has reached" c2 s hs
    rw [ho] at e2 e3 e4
    rw [hp, hrr] at e7
    rw [hp, ht] at e9
    refine ⟨d, heq.trans hd, e2, e3, e4, e1, ?_, ?_, ?_⟩
    · rw [e7]; split <;> omega
    · intro h
      simpa [QTimer.isActive, e9] using h
    · intro hreach
      simp [QTimer.isActive, e9, inv hreach]
  cases hs : c.socket with
  | none =>
    refine main { c with socket := some buildSocket } buildSocket rfl ?_ rfl rfl rfl rfl
    simp [deferredStart, hs, hr]
  | some s =>
    refine main c s hs ?_ rfl rfl rfl rfl
    simp [deferredStart, hs, hr]

theorem deferredStart_at_bound_witness :
    Reachable sampleExhausted ∧
    sampleExhausted.protocolRetry ≥ sampleExhausted.maxProtocolRetries ∧
    ∃ d, deferredStart sampleExhausted = some d ∧
      errorsOf d.out = errorsOf sampleExhausted.out ++
        ["Maximum protocol retries has reached"] ∧
      doneCount d.out = doneCount sampleExhausted.out ∧
      connectCount d.out = connectCount sampleExhausted.out ∧
      d.protocolStarted = false ∧
      d.protocolRetry ≤ sampleExhausted.protocolRetry ∧
      (d.connectTimeoutTimer.isActive = true →
        sampleExhausted.protocolStarted = true ∧
          sampleExhausted.connectTimeoutTimer.isActive = true) ∧
      (Reachable sampleExhausted → d.connectTimeoutTimer.isActive = false) :=
  ⟨reachable_sampleExhausted, by decide, deferredStart_at_bound sampleExhausted (by decide)⟩

/-- C3 (as stated, refuted): on the client with an active protocol, two calls of
`emitDone` in immediate succession emit `done` twice. -/
theorem emitDone_twice_emits_two_done :
    ((emitDone sampleActive).bind emitDone).map (fun c => doneCount c.out) = some 2 ∧
      doneCount sampleActive.out = 0 := by
  decide

/-- C3 (amended): `emitDone` has no guard against a second call.  From every state
in which it returns (a socket exists whenever the protocol is started), two calls
in immediate succession both return and emit `done` exactly twice and no `error`;
the second call finds the protocol stopped and leaves counter and socket alone. -/
theorem emitDone_twice (c : NetworkClient)
    (h : c.protocolStarted = true → c.socket.isSome = true) :
    ∃ c1 c2, emitDone c = some c1 ∧ emitDone c1 = some c2 ∧
      doneCount c1.out = doneCount c.out + 1 ∧
      doneCount c2.out = doneCount c.out + 2 ∧
      errorsOf c2.out = errorsOf c.out ∧
      c1.protocolStarted = false ∧ c2.protocolStarted = false ∧
      c2.protocolRetry = c1.protocolRetry ∧ c2.socket = c1.socket := by
  obtain ⟨h0, p, r, m, st, ct, rs, t1, t2, sk, o⟩ := c
  cases st with
  | false =>
    refine ⟨_, _, emitDone_of_not_started _ rfl, emitDone_of_not_started _ rfl, ?_⟩
    simp [doneCount, errorsOf]
  | true =>
    obtain ⟨s, hsk⟩ := Option.isSome_iff_exists.mp (h rfl)
    refine ⟨_, _, emitDone_of_started _ s rfl hsk, emitDone_of_not_started _ rfl, ?_⟩
    simp [doneCount, errorsOf]

theorem emitDone_twice_witness :
    ∃ c1 c2, emitDone sampleActive = some c1 ∧ emitDone c1 = some c2 ∧
      doneCount c1.out = doneCount sampleActive.out + 1 ∧
      doneCount c2.out = doneCount sampleActive.out + 2 ∧
      errorsOf c2.out = errorsOf sampleActive.out ∧
      c1.protocolStarted = false ∧ c2.protocolStarted = false ∧
      c2.protocolRetry = c1.protocolRetry ∧ c2.socket = c1.socket :=
  emitDone_twice sampleActive (fun _ => rfl)

/-- C4 (as stated, refuted): on the connecting client, a fatal `onSocketError`
followed by `onConnectTimeout` emits two `error` events, and `emitError` followed
by `emitDone` emits an `error` and a `done`; no event was emitted before. -/
theorem teardown_twice_emits_two_events :
    eventCount sampleConnecting.out = 0 ∧
    ((onSocketError SocketError.NetworkError sampleConnecting).bind onConnectTimeout).map
        (fun c => (errorsOf c.out, doneCount c.out))
      = some (["Bad socket error", "Connect timeout"], 0) ∧
    ((emitError "fatal" sampleConnecting).bind emitDone).map
        (fun c => (errorsOf c.out, doneCount c.out))
      = some (["fatal"], 1) := by
  decide

/-- C4 (amended): the teardown path has no guard against a repeated invocation.
On a client with a socket, every sequence of teardown invocations (`emitError`,
`emitDone`, `onConnectTimeout`, `onSocketError` with a code outside the ignored
group) with no `deferredStart` in between returns, and emits exactly one event per
invocation. -/
theorem teardowns_emit_one_event_each (l : List Teardown) (c : NetworkClient)
    (hs : c.socket.isSome = true) (hl : ∀ t ∈ l, t.tearsDown = true) :
    ∃ d, teardowns l c = some d ∧ eventCount d.out = eventCount c.out + l.length := by
  induction l generalizing c with
  | nil => exact ⟨c, rfl, by simp⟩
  | cons t l ih =>
    obtain ⟨s, hsk⟩ := Option.isSome_iff_exists.mp hs
    have ht := hl t (List.mem_cons_self t l)
    have hl2 : ∀ u ∈ l, u.tearsDown = true := fun u hu => hl u (List.mem_cons_of_mem t hu)
    have err : ∀ txt, ∃ d, emitError txt c = some d ∧ d.socket.isSome = true ∧
        eventCount d.out = eventCount c.out + 1 := by
      intro txt
      obtain ⟨d, hd, -, h2, h3, -, -, ⟨n, h6⟩, -⟩ := emitError_spec txt c s hsk
      exact ⟨d, hd, by simp [h6], by simp [eventCount, h2, h3]; omega⟩
    have step : ∃ d, teardown t c = some d ∧ d.socket.isSome = true ∧
        eventCount d.out = eventCount c.out + 1 := by
      cases t with
      | emitError txt => exact err txt
      | emitDone =>
        obtain ⟨d, hd, -, h2, h3, -, h5⟩ := emitDone_spec c s hsk
        exact ⟨d, hd, h5, by simp [eventCount, h2, h3]; omega⟩
      | onConnectTimeout => exact err _
      | onSocketError e =>
        cases e <;> first
          | exact absurd ht (by decide)
          | exact err _
    obtain ⟨d, hd, hds, hde⟩ := step
    obtain ⟨d2, hd2, he2⟩ := ih d hds hl2
    exact ⟨d2, by simp [teardowns, hd, hd2], by simp [he2, hde]; omega⟩

theorem teardowns_emit_one_event_each_witness :
    ∃ d, teardowns [Teardown.onSocketError SocketError.NetworkError,
        Teardown.onConnectTimeout, Teardown.emitDone] sampleConnecting = some d ∧
      eventCount d.out = eventCount sampleConnecting.out +
        [Teardown.onSocketError SocketError.NetworkError,
          Teardown.onConnectTimeout, Teardown.emitDone].length :=
  teardowns_emit_one_event_each _ sampleConnecting rfl (by decide)

/-- C5 (as stated, refuted): with the protocol active, the notification of
`UnconnectedState` emits no `done`; and when the counter has reached the bound it
emits an `error`. -/
theorem onSocketStateChanged_unconnected_emits_no_done :
    sampleActive.protocolStarted = true ∧
    (onSocketStateChanged SocketState.UnconnectedState sampleActive).map
        (fun c => (doneCount c.out, errorsOf c.out)) = some (0, []) ∧
    (onSocketStateChanged SocketState.UnconnectedState
        { sampleActive with protocolRetry := 10 }).map
        (fun c => (doneCount c.out, errorsOf c.out))
      = some (0, ["maxProtocolRetries reached"]) := by
  decide

/-- C5 (amended): for every state with the protocol started and a socket, the
notification of `UnconnectedState` sets `protocolStarted` to false, decrements
`protocolRetry` by exactly 1, aborts the socket and emits no `done`; it emits no
`error` when `protocolRetry < maxProtocolRetries`, and exactly the error
"maxProtocolRetries reached" otherwise. -/
theorem onSocketStateChanged_unconnected_stops (c : NetworkClient) (s : QAbstractSocket)
    (hp : c.protocolStarted = true) (hs : c.socket = some s) :
    ∃ d, onSocketStateChanged SocketState.UnconnectedState c = some d ∧
      d.protocolStarted = false ∧
      d.protocolRetry = c.protocolRetry - 1 ∧
      d.socket = some { state := SocketState.UnconnectedState, readWriteConnections := 0 } ∧
      abortCount c.out < abortCount d.out ∧
      doneCount d.out = doneCount c.out ∧
      errorsOf d.out = errorsOf c.out ++
        (if c.protocolRetry < c.maxProtocolRetries then []
         else ["maxProtocolRetries reached"]) := by
  by_cases hr : c.protocolRetry < c.maxProtocolRetries
  · have hn : ¬ c.protocolRetry ≥ c.maxProtocolRetries := by omega
    simp [onSocketStateChanged, hn, hp, hr, protocolStop, socketAbort, hs,
      QAbstractSocket.abort, QAbstractSocket.disconnectReadWrite, abortCount, doneCount,
      errorsOf]
  · have hn : c.protocolRetry ≥ c.maxProtocolRetries := by omega
    simp [onSocketStateChanged, hn, hp, hr, emitError_eq _ c s hs, abortCount, doneCount,
      errorsOf]

theorem onSocketStateChanged_unconnected_stops_witness :
    ∃ d, onSocketStateChanged SocketState.UnconnectedState sampleActive = some d ∧
      d.protocolStarted = false ∧
      d.protocolRetry = sampleActive.protocolRetry - 1 ∧
      d.socket = some { state := SocketState.UnconnectedState, readWriteConnections := 0 } ∧
      abortCount sampleActive.out < abortCount d.out ∧
      doneCount d.out = doneCount sampleActive.out ∧
      errorsOf d.out = errorsOf sampleActive.out ++
        (if sampleActive.protocolRetry < sampleActive.maxProtocolRetries then []
         else ["maxProtocolRetries reached"]) :=
  onSocketStateChanged_unconnected_stops sampleActive
    { state := SocketState.ConnectedState, readWriteConnections := 1 } rfl rfl

/-- C6: for every state with `protocolStarted = false` and
`protocolRetry < maxProtocolRetries`, the notification of `ConnectedState` starts
the protocol: `protocolStarted` is true, `protocolRetry` is one greater, neither
timer is active, and nothing is emitted (the output is unchanged). -/
theorem onSocketStateChanged_connected_starts (c : NetworkClient)
    (hp : c.protocolStarted = false) (hr : c.protocolRetry < c.maxProtocolRetries) :
    ∃ d, onSocketStateChanged SocketState.ConnectedState c = some d ∧
      d.protocolStarted = true ∧
      d.protocolRetry = c.protocolRetry + 1 ∧
      d.connectTimeoutTimer.isActive = false ∧
      d.reconnectSleepTimer.isActive = false ∧
      d.out = c.out ∧
      errorsOf d.out = errorsOf c.out ∧ doneCount d.out = doneCount c.out := by
  have hn : ¬ c.protocolRetry ≥ c.maxProtocolRetries := by omega
  simp [onSocketStateChanged, hn, hp, protocolStart, stopTimers_eq, QTimer.isActive]

theorem onSocketStateChanged_connected_starts_witness :
    ∃ d, onSocketStateChanged SocketState.ConnectedState sampleConnecting = some d ∧
      d.protocolStarted = true ∧
      d.protocolRetry = sampleConnecting.protocolRetry + 1 ∧
      d.connectTimeoutTimer.isActive = false ∧
      d.reconnectSleepTimer.isActive = false ∧
      d.out = sampleConnecting.out ∧
      errorsOf d.out = errorsOf sampleConnecting.out ∧
      doneCount d.out = doneCount sampleConnecting.out :=
  onSocketStateChanged_connected_starts sampleConnecting rfl (by decide)

/-- C7: after `deferredStart` on a constructed client whose socket then reports
anything but a connection, the connect timer is running; when it fires,
`onConnectTimeout` emits exactly one `error`, with message "Connect timeout", and
no `done`, aborts the socket, and ends with `protocolStarted = false` and both
timers idle. -/
theorem connect_timeout_after_start (ct rs : Nat) (host : String) (port : Nat)
    (l : List Notification) (hl : ∀ n ∈ l, n.notConnected = true) :
    ∃ c1 c2 d, deferredStart (new ct rs host port) = some c1 ∧
      deliverAll l c1 = some c2 ∧
      c2.connectTimeoutTimer.isActive = true ∧
      onConnectTimeout c2 = some d ∧
      errorsOf d.out = ["Connect timeout"] ∧
      doneCount d.out = 0 ∧
      abortCount d.out = 1 ∧
      d.socket = some { state := SocketState.UnconnectedState, readWriteConnections := 0 } ∧
      d.protocolStarted = false ∧
      d.connectTimeoutTimer.isActive = false ∧
      d.reconnectSleepTimer.isActive = false := by
  rcases deliverAll_notConnected l (connecting ct rs host port) rfl
      (by simp [connecting, new]) hl with h | ⟨s, h⟩
  · refine ⟨_, _, _, deferredStart_new ct rs host port, h, rfl, emitError_eq _ _ _ rfl, ?_⟩
    simp [connecting, new, errorsOf, doneCount, abortCount, QTimer.isActive]
  · refine ⟨_, _, _, deferredStart_new ct rs host port, h, rfl, emitError_eq _ _ _ rfl, ?_⟩
    simp [connecting, new, setSocketState, errorsOf, doneCount, abortCount, QTimer.isActive]

theorem connect_timeout_after_start_witness :
    ∃ c1 c2 d, deferredStart (new 100 1000 "example.test" 9999) = some c1 ∧
      deliverAll [Notification.stateChanged SocketState.HostLookupState,
        Notification.stateChanged SocketState.ConnectingState,
        Notification.stateChanged SocketState.UnconnectedState,
        Notification.error SocketError.ConnectionRefusedError] c1 = some c2 ∧
      c2.connectTimeoutTimer.isActive = true ∧
      onConnectTimeout c2 = some d ∧
      errorsOf d.out = ["Connect timeout"] ∧
      doneCount d.out = 0 ∧
      abortCount d.out = 1 ∧
      d.socket = some { state := SocketState.UnconnectedState, readWriteConnections := 0 } ∧
      d.protocolStarted = false ∧
      d.connectTimeoutTimer.isActive = false ∧
      d.reconnectSleepTimer.isActive = false :=
  connect_timeout_after_start 100 1000 "example.test" 9999 _ (by decide)

/-- C8: for every state, `onSocketError` with `ConnectionRefusedError`,
`SocketTimeoutError` or `RemoteHostClosedError` returns the state as it was:
counter, flag, timers, socket and output are all unchanged. -/
theorem onSocketError_ignored_unchanged (c : NetworkClient) :
    onSocketError SocketError.ConnectionRefusedError c = some c ∧
    onSocketError SocketError.SocketTimeoutError c = some c ∧
    onSocketError SocketError.RemoteHostClosedError c = some c :=
  ⟨rfl, rfl, rfl⟩

/-- C9: for every endpoint `(dstHost, dstPort)` of a client with a socket,
`onSocketError(HostNotFoundError)` is fatal: it stops the protocol and emits
exactly one `error`, no `done`; the message is "Host not found: " followed by
`dstHost`, ":" and the decimal rendering of `dstPort`, so both the host and the
port occur in it. -/
theorem onSocketError_hostNotFound (c : NetworkClient) (s : QAbstractSocket)
    (h : c.socket = some s) :
    ∃ d, onSocketError SocketError.HostNotFoundError c = some d ∧
      d.protocolStarted = false ∧
      errorsOf d.out = errorsOf c.out ++
        ["Host not found: " ++ c.dstHost ++ ":" ++ Nat.repr c.dstPort] ∧
      doneCount d.out = doneCount c.out ∧
      ("Host not found: " ++ c.dstHost ++ ":" ++ Nat.repr c.dstPort).data =
        "Host not found: ".data ++ c.dstHost.data ++ [':'] ++ (Nat.repr c.dstPort).data ∧
      c.dstHost.data <:+: ("Host not found: " ++ c.dstHost ++ ":" ++ Nat.repr c.dstPort).data ∧
      (Nat.repr c.dstPort).data <:+:
        ("Host not found: " ++ c.dstHost ++ ":" ++ Nat.repr c.dstPort).data := by
  obtain ⟨d, hd, h1, h2, h3, -⟩ :=
    emitError_spec ("Host not found: " ++ c.dstHost ++ ":" ++ Nat.repr c.dstPort) c s h
  refine ⟨d, hd, h1, h2, h3, ?_, ?_, ?_⟩
  · simp [String.data_append]
  · exact ⟨"Host not found: ".data, [':'] ++ (Nat.repr c.dstPort).data, by
      simp [String.data_append]⟩
  · exact ⟨"Host not found: ".data ++ c.dstHost.data ++ [':'], [], by
      simp [String.data_append]⟩

theorem onSocketError_hostNotFound_witness :
    ∃ d, onSocketError SocketError.HostNotFoundError sampleConnecting = some d ∧
      d.protocolStarted = false ∧
      errorsOf d.out = errorsOf sampleConnecting.out ++
        ["Host not found: " ++ sampleConnecting.dstHost ++ ":" ++
          Nat.repr sampleConnecting.dstPort] ∧
      doneCount d.out = doneCount sampleConnecting.out ∧
      ("Host not found: " ++ sampleConnecting.dstHost ++ ":" ++
          Nat.repr sampleConnecting.dstPort).data =
        "Host not found: ".data ++ sampleConnecting.dstHost.data ++ [':'] ++
          (Nat.repr sampleConnecting.dstPort).data ∧
      sampleConnecting.dstHost.data <:+:
        ("Host not found: " ++ sampleConnecting.dstHost ++ ":" ++
          Nat.repr sampleConnecting.dstPort).data ∧
      (Nat.repr sampleConnecting.dstPort).data <:+:
        ("Host not found: " ++ sampleConnecting.dstHost ++ ":" ++
          Nat.repr sampleConnecting.dstPort).data :=
  onSocketError_hostNotFound sampleConnecting
    { state := SocketState.HostLookupState, readWriteConnections := 0 } rfl

/-- C10: on a client with a socket the classification of `onSocketError` is
total (every code returns); every code outside the ignored group stops the
protocol and emits exactly one `error` and no `done`; each of the nine codes of
the fatal case group emits "Bad socket error", every code the switch does not
name emits "Unknown socket error", and the two messages differ. -/
theorem onSocketError_classification (c : NetworkClient) (s : QAbstractSocket)
    (h : c.socket = some s) :
    (∀ e, (onSocketError e c).isSome = true) ∧
    (∀ e, e.ignored = false →
      ∃ d t, onSocketError e c = some d ∧ d.protocolStarted = false ∧
        errorsOf d.out = errorsOf c.out ++ [t] ∧ doneCount d.out = doneCount c.out ∧
        abortCount c.out < abortCount d.out) ∧
    (∀ e ∈ [SocketError.SocketAccessError, SocketError.SocketResourceError,
          SocketError.DatagramTooLargeError, SocketError.AddressInUseError,
          SocketError.NetworkError, SocketError.SocketAddressNotAvailableError,
          SocketError.UnsupportedSocketOperationError,
          SocketError.ProxyAuthenticationRequiredError, SocketError.UnknownSocketError],
      ∃ d, onSocketError e c = some d ∧ d.protocolStarted = false ∧
        errorsOf d.out = errorsOf c.out ++ ["Bad socket error"]) ∧
    (∀ code, ∃ d, onSocketError (SocketError.other code) c = some d ∧
        d.protocolStarted = false ∧
        errorsOf d.out = errorsOf c.out ++ ["Unknown socket error"]) ∧
    "Bad socket error" ≠ "Unknown socket error" := by
  have key : ∀ t, ∃ d, emitError t c = some d ∧ d.protocolStarted = false ∧
      errorsOf d.out = errorsOf c.out ++ [t] ∧ doneCount d.out = doneCount c.out ∧
      abortCount c.out < abortCount d.out := by
    intro t
    obtain ⟨d, hd, h1, h2, h3, -, h5, -⟩ := emitError_spec t c s h
    exact ⟨d, hd, h1, h2, h3, h5⟩
  refine ⟨?_, ?_, ?_, ?_, by decide⟩
  · intro e
    have some_of : ∀ t, (emitError t c).isSome = true := by
      intro t
      obtain ⟨d, hd, -⟩ := key t
      simp [hd]
    cases e <;> first
      | rfl
      | exact some_of _
  · intro e he
    cases e <;> first
      | (exact absurd he (by decide))
      | (obtain ⟨d, hd⟩ := key ("Host not found: " ++ c.dstHost ++ ":" ++ Nat.repr c.dstPort)
         exact ⟨d, _, hd⟩)
      | (obtain ⟨d, hd⟩ := key "Bad socket error"
         exact ⟨d, _, hd⟩)
      | (obtain ⟨d, hd⟩ := key "Unknown socket error"
         exact ⟨d, _, hd⟩)
  · intro e he
    obtain ⟨d, hd, h1, h2, -⟩ := key "Bad socket error"
    simp only [List.mem_cons, List.mem_singleton, List.not_mem_nil, or_false] at he
    rcases he with rfl | rfl | rfl | rfl | rfl | rfl | rfl | rfl | rfl <;>
      exact ⟨d, hd, h1, h2⟩
  · intro code
    obtain ⟨d, hd, h1, h2, -⟩ := key "Unknown socket error"
    exact ⟨d, hd, h1, h2⟩

theorem onSocketError_classification_witness :
    (∀ e, (onSocketError e sampleConnecting).isSome = true) ∧
    (∀ e, e.ignored = false →
      ∃ d t, onSocketError e sampleConnecting = some d ∧ d.protocolStarted = false ∧
        errorsOf d.out = errorsOf sampleConnecting.out ++ [t] ∧
        doneCount d.out = doneCount sampleConnecting.out ∧
        abortCount sampleConnecting.out < abortCount d.out) ∧
    (∀ e ∈ [SocketError.SocketAccessError, SocketError.SocketResourceError,
          SocketError.DatagramTooLargeError, SocketError.AddressInUseError,
          SocketError.NetworkError, SocketError.SocketAddressNotAvailableError,
          SocketError.UnsupportedSocketOperationError,
          SocketError.ProxyAuthenticationRequiredError, SocketError.UnknownSocketError],
      ∃ d, onSocketError e sampleConnecting = some d ∧ d.protocolStarted = false ∧
        errorsOf d.out = errorsOf sampleConnecting.out ++ ["Bad socket error"]) ∧
    (∀ code, ∃ d, onSocketError (SocketError.other code) sampleConnecting = some d ∧
        d.protocolStarted = false ∧
        errorsOf d.out = errorsOf sampleConnecting.out ++ ["Unknown socket error"]) ∧
    "Bad socket error" ≠ "Unknown socket error" :=
  onSocketError_classification sampleConnecting
    { state := SocketState.HostLookupState, readWriteConnections := 0 } rfl

/-- C11: in every reachable state (operations and notifications: `deferredStart`,
`onConnectTimeout`, `onSocketStateChanged`, `onSocketError`, `emitError`,
`emitDone`, `sureWrite`) the connect timer and the reconnect timer are not both
running; the reconnect timer is in fact never running, since nothing starts it. -/
theorem timers_never_both_armed (c : NetworkClient) (h : Reachable c) :
    ¬ (c.connectTimeoutTimer.isActive = true ∧ c.reconnectSleepTimer.isActive = true) ∧
      c.reconnectSleepTimer.isActive = false := by
  obtain ⟨-, -, -, -, -, h6, -⟩ := reachable_coherent h
  simp [QTimer.isActive, h6]

theorem timers_never_both_armed_witness :
    Reachable sampleConnecting ∧
    sampleConnecting.connectTimeoutTimer.isActive = true ∧
    ¬ (sampleConnecting.connectTimeoutTimer.isActive = true ∧
        sampleConnecting.reconnectSleepTimer.isActive = true) ∧
      sampleConnecting.reconnectSleepTimer.isActive = false :=
  ⟨reachable_sampleConnecting, rfl, timers_never_both_armed sampleConnecting
    reachable_sampleConnecting⟩

/-- C12: for every buffer and every socket whose `write`, offered `n >= 1` bytes,
accepts some `k` with `1 <= k <= n`, `sureWrite` on a client with a socket ends
(within `size(buffer)` iterations) after at most `size(buffer)` write calls; each
call is offered exactly the suffix not yet accepted; every call accepts between
one byte and what it was offered; the accepted chunks concatenated are the
buffer; and when the first call accepts the whole buffer there is one call only. -/
theorem sureWrite_delivers_buffer {σ : Type} (write : σ → List UInt8 → Int × σ)
    (hw : ∀ t data, data ≠ [] → 1 ≤ (write t data).1 ∧ (write t data).1 ≤ data.length)
    (response : List UInt8) (t : σ) (c : NetworkClient) (hs : c.socket.isSome = true)
    (fuel : Nat) (hf : response.length ≤ fuel) :
    ∃ d u calls, sureWrite write fuel response t c = some (d, u) ∧
      d = { c with out := c.out ++ writeEffects calls } ∧
      calls.length ≤ response.length ∧
      offersSuffixes response calls = true ∧
      (∀ p ∈ calls, 1 ≤ p.2 ∧ p.2 ≤ p.1.length) ∧
      acceptedBytes calls = response ∧
      (response ≠ [] → (write t response).1 = response.length →
        calls = [(response, (response.length : Int))]) := by
  have hw2 : ∀ t data, data ≠ [] →
      (write t data).1 < 0 ∨ (1 ≤ (write t data).1 ∧ (write t data).1 ≤ data.length) :=
    fun t data h => Or.inr (hw t data h)
  obtain ⟨d, u, calls, hrun, hd, hlen, hoff, hmem, hhead, hout⟩ :=
    sureWriteLoop_spec write response hw2 fuel 0 response t c rfl hs hf
  have hall : ∀ p ∈ calls, 1 ≤ p.2 ∧ p.2 ≤ p.1.length := by
    intro p hp
    obtain ⟨hne, v, hv⟩ := hmem p hp
    rw [hv]
    exact hw v p.1 hne
  have hacc : acceptedBytes calls = response := by
    rcases hout with ⟨-, hacc⟩ | ⟨init, last, r, hc, hr, -, -, -⟩
    · exact hacc
    · have := (hall (last, r) (by simp [hc])).1
      simp only at this
      omega
  refine ⟨d, u, calls, hrun, hd, hlen, hoff, hall, hacc, ?_⟩
  intro hne hfull
  obtain ⟨l, hl⟩ := hhead hne
  rw [hfull] at hl
  cases l with
  | nil => exact hl
  | cons q l2 =>
    exfalso
    have hq := (hmem q (by simp [hl])).1
    have hoff2 := hoff
    rw [hl] at hoff2
    simp [offersSuffixes] at hoff2
    exact hq hoff2.1

theorem sureWrite_delivers_buffer_witness :
    ∃ d u calls, sureWrite acceptAll 4 ping () sampleActive = some (d, u) ∧
      d = { sampleActive with out := sampleActive.out ++ writeEffects calls } ∧
      calls.length ≤ ping.length ∧
      offersSuffixes ping calls = true ∧
      (∀ p ∈ calls, 1 ≤ p.2 ∧ p.2 ≤ p.1.length) ∧
      acceptedBytes calls = ping ∧
      (ping ≠ [] → (acceptAll () ping).1 = ping.length →
        calls = [(ping, (ping.length : Int))]) :=
  sureWrite_delivers_buffer acceptAll acceptAll_answers ping () sampleActive rfl 4
    (by decide)

/-- C13 (as stated, refuted): with a socket that accepts 3 of 10 bytes and then
fails, `sureWrite` makes the two calls and returns; it emits no `error` and no
`done` and leaves the client as it was, output apart, exactly as it does when
every byte is accepted: the failure is not reported. -/
theorem sureWrite_failure_not_reported :
    (sureWrite acceptThreeThenFail 10 tenBytes 0 sampleActive).map
        (fun r => (writesOf r.1.out, errorsOf r.1.out, doneCount r.1.out,
          { r.1 with out := [] }))
      = some ([(tenBytes, 3), (tenBytes.drop 3, -1)], [], 0,
          { sampleActive with out := [] }) ∧
    (sureWrite acceptAll 10 tenBytes () sampleActive).map
        (fun r => (errorsOf r.1.out, doneCount r.1.out, { r.1 with out := [] }))
      = some ([], 0, { sampleActive with out := [] }) := by
  decide

/-- C13 (amended): on a socket whose `write` either fails or accepts between one
byte and the block offered, `sureWrite` ends; when a call fails it is the last
call (no further write call), the bytes delivered are exactly those accepted
before it, a prefix of the buffer, and the bytes the failing call was offered
are abandoned; nothing reports the failure: the client is unchanged but for
the logged write calls, and no `error` or `done` is emitted. -/
theorem sureWrite_stops_at_error {σ : Type} (write : σ → List UInt8 → Int × σ)
    (hw : ∀ t data, data ≠ [] →
      (write t data).1 < 0 ∨ (1 ≤ (write t data).1 ∧ (write t data).1 ≤ data.length))
    (response : List UInt8) (t : σ) (c : NetworkClient) (hs : c.socket.isSome = true)
    (fuel : Nat) (hf : response.length ≤ fuel) :
    ∃ d u calls, sureWrite write fuel response t c = some (d, u) ∧
      d = { c with out := c.out ++ writeEffects calls } ∧
      errorsOf d.out = errorsOf c.out ∧
      doneCount d.out = doneCount c.out ∧
      offersSuffixes response calls = true ∧
      ((∃ p ∈ calls, p.2 < 0) →
        ∃ init last r, calls = init ++ [(last, r)] ∧ r < 0 ∧
          (∀ p ∈ init, 1 ≤ p.2) ∧
          acceptedBytes calls = acceptedBytes init ∧
          last ≠ [] ∧
          acceptedBytes init ++ last = response) := by
  obtain ⟨d, u, calls, hrun, hd, -, hoff, -, -, hout⟩ :=
    sureWriteLoop_spec write response hw fuel 0 response t c rfl hs hf
  refine ⟨d, u, calls, hrun, hd, by simp [hd], by simp [hd], hoff, ?_⟩
  rintro ⟨p, hp, hneg⟩
  rcases hout with ⟨hall, -⟩ | ⟨init, last, r, hc, hr, hall, hl, hacc⟩
  · have := hall p hp
    omega
  · refine ⟨init, last, r, hc, hr, hall, ?_, hl, hacc⟩
    have h0 : r.toNat = 0 := by omega
    simp [hc, acceptedBytes_append, acceptedBytes, h0]

theorem sureWrite_stops_at_error_witness :
    ∃ d u calls, sureWrite acceptThreeThenFail 10 tenBytes 0 sampleActive = some (d, u) ∧
      d = { sampleActive with out := sampleActive.out ++ writeEffects calls } ∧
      errorsOf d.out = errorsOf sampleActive.out ∧
      doneCount d.out = doneCount sampleActive.out ∧
      offersSuffixes tenBytes calls = true ∧
      ((∃ p ∈ calls, p.2 < 0) →
        ∃ init last r, calls = init ++ [(last, r)] ∧ r < 0 ∧
          (∀ p ∈ init, 1 ≤ p.2) ∧
          acceptedBytes calls = acceptedBytes init ∧
          last ≠ [] ∧
          acceptedBytes init ++ last = tenBytes) :=
  sureWrite_stops_at_error acceptThreeThenFail acceptThreeThenFail_answers tenBytes 0
    sampleActive rfl 10 (by decide)

/-- C14 (as stated, refuted): on the connecting client, whose protocol is not
started, `sureWrite` hands all four bytes of "PING" to the socket and emits no
error. -/
theorem sureWrite_without_protocol_writes :
    sampleConnecting.protocolStarted = false ∧
    (sureWrite acceptAll 4 ping () sampleConnecting).map
        (fun r => (writesOf r.1.out, acceptedBytes (writesOf r.1.out), errorsOf r.1.out))
      = some ([(ping, 4)], ping, []) := by
  decide

/-- C14 (amended): `sureWrite` never reads `protocolStarted` and has no
`NotConnected` failure.  For every state with a socket in which the protocol is
not started, and a socket that accepts between one byte and the block offered,
`sureWrite` ends, hands the whole buffer to the socket, emits no `error`, and
leaves `protocolStarted` false; it does the very same with the flag set. -/
theorem sureWrite_ignores_protocolStarted {σ : Type} (write : σ → List UInt8 → Int × σ)
    (hw : ∀ t data, data ≠ [] → 1 ≤ (write t data).1 ∧ (write t data).1 ≤ data.length)
    (response : List UInt8) (t : σ) (c : NetworkClient) (hs : c.socket.isSome = true)
    (hp : c.protocolStarted = false) (fuel : Nat) (hf : response.length ≤ fuel) :
    ∃ d u calls, sureWrite write fuel response t c = some (d, u) ∧
      d = { c with out := c.out ++ writeEffects calls } ∧
      acceptedBytes calls = response ∧
      errorsOf d.out = errorsOf c.out ∧
      d.protocolStarted = false ∧
      sureWrite write fuel response t { c with protocolStarted := true }
        = some ({ d with protocolStarted := true }, u) := by
  have hw2 : ∀ t data, data ≠ [] →
      (write t data).1 < 0 ∨ (1 ≤ (write t data).1 ∧ (write t data).1 ≤ data.length) :=
    fun t data h => Or.inr (hw t data h)
  obtain ⟨d, u, calls, hrun, hd, -, -, hmem, -, hout⟩ :=
    sureWriteLoop_spec write response hw2 fuel 0 response t c rfl hs hf
  have hacc : acceptedBytes calls = response := by
    rcases hout with ⟨-, hacc⟩ | ⟨init, last, r, hc, hr, -, -, -⟩
    · exact hacc
    · obtain ⟨hne, v, hv⟩ := hmem (last, r) (by simp [hc])
      have := (hw v last hne).1
      simp only at hv
      omega
  refine ⟨d, u, calls, hrun, hd, hacc, by simp [hd], by simp [hd, hp], ?_⟩
  have hflag := sureWriteLoop_protocolStarted write response true fuel 0
    (response.length : Int) t c
  simp only [sureWrite] at hrun ⊢
  rw [hflag, hrun]
  rfl

theorem sureWrite_ignores_protocolStarted_witness :
    ∃ d u calls, sureWrite acceptAll 4 ping () sampleConnecting = some (d, u) ∧
      d = { sampleConnecting with out := sampleConnecting.out ++ writeEffects calls } ∧
      acceptedBytes calls = ping ∧
      errorsOf d.out = errorsOf sampleConnecting.out ∧
      d.protocolStarted = false ∧
      sureWrite acceptAll 4 ping () { sampleConnecting with protocolStarted := true }
        = some ({ d with protocolStarted := true }, u) :=
  sureWrite_ignores_protocolStarted acceptAll acceptAll_answers ping () sampleConnecting
    rfl rfl 4 (by decide)

/-- C15 (code at the failing input): on the client whose socket is connected and
whose protocol is started, `deferredStart` issues no `connectToHost` request and
leaves flag and timers as they were, but runs `protocolStart` again: the counter
goes from 1 to 2 and the slots are connected a second time; a second call raises
the counter once more, so two calls differ from one. -/
theorem deferredStart_on_active_restarts :
    sampleActive.protocolStarted = true ∧
    sampleActive.socket =
      some { state := SocketState.ConnectedState, readWriteConnections := 1 } ∧
    deferredStart sampleActive = some sampleReactivated ∧
    sampleReactivated.out = sampleActive.out ∧
    sampleReactivated.protocolStarted = sampleActive.protocolStarted ∧
    sampleReactivated.connectTimeoutTimer = sampleActive.connectTimeoutTimer ∧
    sampleReactivated.reconnectSleepTimer = sampleActive.reconnectSleepTimer ∧
    sampleActive.protocolRetry = 1 ∧
    sampleReactivated.protocolRetry = 2 ∧
    ((deferredStart sampleActive).bind deferredStart).map (fun c => c.protocolRetry)
      = some 3 := by
  decide

/-- C16 (as stated, refuted): the client `sampleClosing` is reachable and has a
socket; its protocol is started and its connect timer runs.  After `emitDone`,
and likewise after `emitError`, the protocol is stopped but the connect timer
still runs. -/
theorem teardown_leaves_timer_running :
    Reachable sampleClosing ∧
    sampleClosing.socket.isSome = true ∧
    (emitDone sampleClosing).map
        (fun c => (c.protocolStarted, c.connectTimeoutTimer.isActive)) = some (false, true) ∧
    (emitError "fatal" sampleClosing).map
        (fun c => (c.protocolStarted, c.connectTimeoutTimer.isActive)) = some (false, true) :=
  ⟨reachable_sampleClosing, by decide, by decide, by decide⟩

/-- C16 (amended): for every state with a socket, `emitDone` and `emitError` return
with `protocolStarted = false`.  When the protocol was not started before the
call they run `stopTimers` and neither timer runs afterwards; when it was
started they run `protocolStop` instead and leave each timer as it was. -/
theorem teardown_timers (c : NetworkClient) (s : QAbstractSocket) (hs : c.socket = some s) :
    (∃ d, emitDone c = some d ∧ d.protocolStarted = false ∧
      d.connectTimeoutTimer.isActive = (c.protocolStarted && c.connectTimeoutTimer.isActive) ∧
      d.reconnectSleepTimer.isActive =
        (c.protocolStarted && c.reconnectSleepTimer.isActive)) ∧
    (∀ errTxt, ∃ d, emitError errTxt c = some d ∧ d.protocolStarted = false ∧
      d.connectTimeoutTimer.isActive = (c.protocolStarted && c.connectTimeoutTimer.isActive) ∧
      d.reconnectSleepTimer.isActive =
        (c.protocolStarted && c.reconnectSleepTimer.isActive)) := by
  constructor
  · cases hp : c.protocolStarted with
    | false => exact ⟨_, emitDone_of_not_started c hp, by simp [QTimer.isActive, hp]⟩
    | true => exact ⟨_, emitDone_of_started c s hp hs, by simp [QTimer.isActive]⟩
  · intro errTxt
    obtain ⟨d, hd, e1, -, -, -, -, -, -, -, e9, e10⟩ := emitError_spec errTxt c s hs
    exact ⟨d, hd, e1, e9, e10⟩

theorem teardown_timers_witness :
    (∃ d, emitDone sampleConnecting = some d ∧ d.protocolStarted = false ∧
      d.connectTimeoutTimer.isActive =
        (sampleConnecting.protocolStarted && sampleConnecting.connectTimeoutTimer.isActive) ∧
      d.reconnectSleepTimer.isActive =
        (sampleConnecting.protocolStarted &&
          sampleConnecting.reconnectSleepTimer.isActive)) ∧
    (∀ errTxt, ∃ d, emitError errTxt sampleConnecting = some d ∧ d.protocolStarted = false ∧
      d.connectTimeoutTimer.isActive =
        (sampleConnecting.protocolStarted && sampleConnecting.connectTimeoutTimer.isActive) ∧
      d.reconnectSleepTimer.isActive =
        (sampleConnecting.protocolStarted &&
          sampleConnecting.reconnectSleepTimer.isActive)) :=
  teardown_timers sampleConnecting
    { state := SocketState.HostLookupState, readWriteConnections := 0 } rfl

/-- C17: for every reachable state with `protocolStarted = false`, a close by the
peer (`onSocketError(RemoteHostClosedError)` and
`onSocketStateChanged(UnconnectedState)`, in either order) returns, emits
nothing (the output is unchanged) and leaves `protocolRetry` and
`protocolStarted` as they were; a following `deferredStart` issues one
`connectToHost` request and no `error`. -/
theorem peer_close_without_session (c : NetworkClient) (h : Reachable c)
    (hp : c.protocolStarted = false) :
    ∃ c1 d,
      deliverAll [Notification.error SocketError.RemoteHostClosedError,
        Notification.stateChanged SocketState.UnconnectedState] c = some c1 ∧
      deliverAll [Notification.stateChanged SocketState.UnconnectedState,
        Notification.error SocketError.RemoteHostClosedError] c = some c1 ∧
      c1.out = c.out ∧
      c1.protocolRetry = c.protocolRetry ∧
      c1.protocolStarted = false ∧
      deferredStart c1 = some d ∧
      d.out = c.out ++ [Effect.connectToHost c.dstHost c.dstPort] ∧
      connectCount d.out = connectCount c.out + 1 ∧
      errorsOf d.out = errorsOf c.out := by
  obtain ⟨-, -, -, -, h5, -, -⟩ := reachable_coherent h
  have hlt := h5 hp
  have hg : ¬ c.protocolRetry ≥ c.maxProtocolRetries := by omega
  have hsock : (c.setSocketState SocketState.UnconnectedState).socket = none ∨
      ∃ n, (c.setSocketState SocketState.UnconnectedState).socket =
        some { state := SocketState.UnconnectedState, readWriteConnections := n } := by
    cases hs : c.socket with
    | none => exact Or.inl (by simp [setSocketState, hs])
    | some sk => exact Or.inr ⟨sk.readWriteConnections, by simp [setSocketState, hs]⟩
  obtain ⟨d, hd, -, -, -, -, ho⟩ :=
    deferredStart_connects (c.setSocketState SocketState.UnconnectedState) hp hlt hsock
  have hstate : onSocketStateChanged SocketState.UnconnectedState
      (c.setSocketState SocketState.UnconnectedState)
      = some (c.setSocketState SocketState.UnconnectedState) := by
    simp [onSocketStateChanged, setSocketState, hg, hp]
  refine ⟨c.setSocketState SocketState.UnconnectedState, d, ?_, ?_, rfl, rfl, hp, hd, ho, ?_, ?_⟩
  · simp [deliverAll, deliver, onSocketError, hstate]
  · simp [deliverAll, deliver, onSocketError, hstate]
  · rw [ho]
    simp [setSocketState, connectCount]
  · rw [ho]
    simp [setSocketState, errorsOf]

theorem peer_close_without_session_witness :
    ∃ c1 d,
      deliverAll [Notification.error SocketError.RemoteHostClosedError,
        Notification.stateChanged SocketState.UnconnectedState] sampleConnecting = some c1 ∧
      deliverAll [Notification.stateChanged SocketState.UnconnectedState,
        Notification.error SocketError.RemoteHostClosedError] sampleConnecting = some c1 ∧
      c1.out = sampleConnecting.out ∧
      c1.protocolRetry = sampleConnecting.protocolRetry ∧
      c1.protocolStarted = false ∧
      deferredStart c1 = some d ∧
      d.out = sampleConnecting.out ++
        [Effect.connectToHost sampleConnecting.dstHost sampleConnecting.dstPort] ∧
      connectCount d.out = connectCount sampleConnecting.out + 1 ∧
      errorsOf d.out = errorsOf sampleConnecting.out :=
  peer_close_without_session sampleConnecting reachable_sampleConnecting rfl

/-- C18 (code at the failing input): the client `sampleReactivated` is reachable
(construction, `deferredStart`, notification of `ConnectedState`,
`deferredStart`); its protocol is started and its counter is 2, neither 1 nor 0. -/
theorem counter_exceeds_one_session :
    Reachable sampleReactivated ∧
    sampleReactivated.protocolStarted = true ∧
    sampleReactivated.protocolRetry = 2 :=
  ⟨reachable_sampleReactivated, rfl, rfl⟩

/-- C19: a call of `deferredStart` that returns leaves a socket; no operation or
notification takes the socket away again; in every reachable state without a
socket the protocol is not started and no timer runs; so every call of a slot
by a notification returns, that is, its `emitError` or `protocolStop` finds the
socket: the slots of the socket whenever there is a socket, and
`onConnectTimeout` whenever, in a reachable state, the connect timer runs. -/
theorem socket_exists_when_not_idle :
    (∀ c d, deferredStart c = some d → d.socket.isSome = true) ∧
    (∀ c d, Step c d → c.socket.isSome = true → d.socket.isSome = true) ∧
    (∀ c, Reachable c → c.socket = none →
      c.protocolStarted = false ∧ c.connectTimeoutTimer.isActive = false ∧
        c.reconnectSleepTimer.isActive = false) ∧
    (∀ c, c.socket.isSome = true →
      (∀ s, (onSocketStateChanged s (c.setSocketState s)).isSome = true) ∧
        (∀ e, (onSocketError e c).isSome = true)) ∧
    (∀ c, Reachable c → c.connectTimeoutTimer.isActive = true →
      c.socket.isSome = true ∧ (onConnectTimeout c).isSome = true) := by
  refine ⟨fun c d h => socket_of_deferredStart h, fun c d h hs => socket_kept_by_step h hs,
    ?_, ?_, ?_⟩
  · intro c hr hn
    obtain ⟨-, -, -, -, -, h6, h7⟩ := reachable_coherent hr
    exact ⟨(h7 hn).1, (h7 hn).2, h6⟩
  · intro c hs
    obtain ⟨sk, hsk⟩ := Option.isSome_iff_exists.mp hs
    exact ⟨fun s => onSocketStateChanged_isSome s _ (by simp [setSocketState, hsk]),
      fun e => onSocketError_isSome e c hs⟩
  · intro c hr ht
    obtain ⟨-, -, -, -, -, -, h7⟩ := reachable_coherent hr
    cases hs : c.socket with
    | none =>
      have := (h7 hs).2
      simp [QTimer.isActive, this] at ht
    | some sk =>
      obtain ⟨d, hd, -⟩ := emitError_spec "Connect timeout" c sk hs
      simp [onConnectTimeout, hd]

theorem socket_exists_when_not_idle_witness :
    sampleConnecting.socket.isSome = true ∧
    (sampleIdle.protocolStarted = false ∧ sampleIdle.connectTimeoutTimer.isActive = false ∧
      sampleIdle.reconnectSleepTimer.isActive = false) ∧
    (sampleConnecting.socket.isSome = true ∧
      (onConnectTimeout sampleConnecting).isSome = true) :=
  ⟨socket_exists_when_not_idle.1 sampleIdle sampleConnecting deferredStart_sampleIdle,
    socket_exists_when_not_idle.2.2.1 sampleIdle
      (Reachable.init 100 1000 "example.test" 9999) rfl,
    socket_exists_when_not_idle.2.2.2.2 sampleConnecting reachable_sampleConnecting rfl⟩

/-- C20: in every reachable state `0 <= protocolRetry <= maxProtocolRetries`, and
`protocolStarted = true` implies `protocolRetry >= 1`, so the decrement in
`protocolStop`, which runs only with the protocol started, never takes the
counter below zero. -/
theorem counter_within_bounds (c : NetworkClient) (h : Reachable c) :
    0 ≤ c.protocolRetry ∧ c.protocolRetry ≤ c.maxProtocolRetries ∧
      (c.protocolStarted = true → 1 ≤ c.protocolRetry) := by
  obtain ⟨-, h2, h3, h4, -⟩ := reachable_coherent h
  exact ⟨h2, h3, h4⟩

theorem counter_within_bounds_witness :
    Reachable sampleExhausted ∧
    (0 ≤ sampleExhausted.protocolRetry ∧
      sampleExhausted.protocolRetry ≤ sampleExhausted.maxProtocolRetries ∧
      (sampleExhausted.protocolStarted = true → 1 ≤ sampleExhausted.protocolRetry)) :=
  ⟨reachable_sampleExhausted, counter_within_bounds sampleExhausted reachable_sampleExhausted⟩

end NetworkClient

end QtXmlRpc
